import Mathlib

/-!
Shallow embedding of the tourism-simulation core (hotspot dynamics, tourist
behaviour, scenario engine, orchestrator) of the mesa-poc repository.

Numbers are modelled as exact rationals (Python floats carry the same literal
constants here; every claim below is about control flow, counters, clamping
and state sharing, none of which depends on rounding).  Python dicts keyed by
strings are modelled as association lists in insertion order.  The one piece
of genuinely stateful Python semantics that matters to the claims is the
*shallow* copy `self.base_appeal_to_personas = self.appeal_to_personas.copy()`
in `ScenarioAwareHotspot.__init__`: when an appeal entry is itself a dict
(`{"appeal_score": ...}`), the inner dict object is shared between the live
table and the "base" snapshot.  We model that with an explicit per-hotspot
heap of `appeal_score` cells: a dict-valued entry is a reference into the
heap, a bare float entry is an immediate value.

Randomness (`np.random.choice`, `random.random`) is modelled by oracle
streams with explicit counters; the weighted choice is abstracted to "pick
some positive-weight entry determined by the next draw", which is faithful to
the support of `np.random.choice(p=...)` and is all the claims need.  The
euclidean distance `np.sqrt` is irrational on most inputs, so the square
root is an oracle `ℕ → ℚ` applied to the exact squared distance; concrete
instances below only use it at perfect squares (where the oracle is pinned
to the true value by the concrete choice).
-/

namespace MesaPoc

/-- Value of one entry of an event's `parameters` dict: a number or a list of
persona-type strings (`target_personas`). -/
inductive ParamVal
  | num (q : ℚ)
  | strs (l : List String)
deriving DecidableEq, Repr

/-- An event's `parameters` dict. -/
abbrev Params := List (String × ParamVal)

/-- Simple association-list lookup (Python `dict[key]` / `dict.get`). -/
def alookup {α : Type} : List (String × α) → String → Option α
  | [], _ => none
  | kv :: rest, k => if kv.1 = k then some kv.2 else alookup rest k

/-- Python `params.get(key, default)` for a numeric parameter. -/
def Params.getNum (ps : Params) (key : String) (dflt : ℚ) : ℚ :=
  match alookup ps key with
  | some (.num q) => q
  | _ => dflt

/-- Python `params.get("target_personas", [])`. -/
def Params.getStrs (ps : Params) (key : String) : List String :=
  match alookup ps key with
  | some (.strs l) => l
  | _ => []

/-- One scenario event dict: `{"step", "type", "target", "parameters",
"description", "reasoning"}` (built by `TourismScenario.add_event`).
Equality of this structure models Python dict equality, which is what the
`event not in self.processed_events` membership test uses. -/
structure Event where
  step : ℕ
  type : String
  target : String
  params : Params
  description : String
  reasoning : String
deriving DecidableEq, Repr

/-- The `capacity_limit` regulation's parameter dict. -/
structure CapacityLimitReg where
  target : String
  newCapacity : ℚ
deriving DecidableEq, Repr

/-- The `luxury_tax` regulation's parameter dict. -/
structure LuxuryTaxReg where
  affectedCategories : List String
  taxRate : ℚ
deriving DecidableEq, Repr

/-- The `regulations` dict of a scenario; `none` models absence of the key. -/
structure Regulations where
  capacityLimit : Option CapacityLimitReg
  luxuryTax : Option LuxuryTaxReg
deriving DecidableEq, Repr

/-- A `TourismScenario`: timed events, standing regulations, external
factors (the fields the core reads; name/description/etc. are diagnostic). -/
structure Scenario where
  events : List Event
  regulations : Regulations
  externalFactors : List (String × ℚ)
deriving DecidableEq, Repr

/-- One value of the `appeal_to_personas` dict: either a bare float or a
reference to a shared `{"appeal_score": ...}` dict cell in the hotspot's
heap (see the module docstring on shallow copies). -/
inductive AppealEntry
  | score (v : ℚ)
  | ref (addr : ℕ)
deriving DecidableEq, Repr

/-- Input shape of one `appeal_to_personas` entry in the hotspot JSON record:
a bare float or a dict `{"appeal_score": v, ...}` ("reasons" are ignored by
the core). -/
inductive AppealInit
  | raw (v : ℚ)
  | dict (v : ℚ)
deriving DecidableEq, Repr

/-- State of a `ScenarioAwareHotspot` (which inherits all base `Hotspot`
fields; `capacity` is the base-class attribute `self.capacity`, distinct
from the scenario-aware `effective_capacity`).  `heap` holds the
`appeal_score` cells of dict-valued appeal entries; `activeEvents` is the
length of the `active_events` message list (only its length is observed by
`get_statistics`). -/
structure HotspotState where
  uid : ℕ
  name : String
  category : String
  pos : ℤ × ℤ
  currentPopularity : ℚ
  baseCapacity : ℚ
  capacity : ℚ
  visitorsToday : ℕ
  totalVisitors : ℕ
  socialShares : ℕ
  popularityHistory : List ℚ
  appeal : List (String × AppealEntry)
  baseAppeal : List (String × AppealEntry)
  heap : List ℚ
  effectiveCapacity : ℚ
  accessibilityModifier : ℚ
  satisfactionModifiers : List (String × ℚ)
  activeEvents : ℕ
  processedEvents : List Event
deriving DecidableEq, Repr

/-- Reads an appeal entry's score: a dict entry reads its (shared)
`appeal_score` cell with Python's `dict.get("appeal_score", 0.3)` default. -/
def entryScore (heap : List ℚ) : AppealEntry → ℚ
  | .score v => v
  | .ref a => heap.getD a (3/10)

/-- `Hotspot.get_persona_appeal`: table lookup with default 0.3 for unknown
persona types. -/
def HotspotState.getPersonaAppeal (h : HotspotState) (p : String) : ℚ :=
  match alookup h.appeal p with
  | some e => entryScore h.heap e
  | none => 3/10

/-- Replace the value stored under a key of an association list. -/
def aset {α : Type} (l : List (String × α)) (k : String) (v : α) :
    List (String × α) :=
  l.map fun kv => if kv.1 = k then (k, v) else kv

/-- The write `appeal_to_personas[p]["appeal_score"] = v` (dict entry: write
through the shared heap cell) or `appeal_to_personas[p] = v` (float entry:
rebind in the live table only), as in `process_event`/`apply_regulations`. -/
def HotspotState.setAppeal (h : HotspotState) (p : String) (v : ℚ) :
    HotspotState :=
  match alookup h.appeal p with
  | some (.ref a) => { h with heap := h.heap.set a v }
  | some (.score _) => { h with appeal := aset h.appeal p (.score v) }
  | none => h

/-- `Hotspot.record_visit`: increments `visitors_today` and `total_visitors`. -/
def HotspotState.recordVisit (h : HotspotState) : HotspotState :=
  { h with visitorsToday := h.visitorsToday + 1,
           totalVisitors := h.totalVisitors + 1 }

/-- `Hotspot.add_social_boost`: add to popularity, cap at 1.0, count the
share. -/
def HotspotState.addSocialBoost (h : HotspotState) (boost : ℚ) : HotspotState :=
  { h with currentPopularity := min 1 (h.currentPopularity + boost),
           socialShares := h.socialShares + 1 }

/-- `ScenarioAwareHotspot.get_capacity_factor`: 1.0 with no visitors, else
`min(1.0, effective_capacity / max(1, visitors_today))`. -/
def HotspotState.getCapacityFactor (h : HotspotState) : ℚ :=
  if h.visitorsToday = 0 then 1
  else min 1 (h.effectiveCapacity / max 1 (h.visitorsToday : ℚ))

/-- `Hotspot.update_popularity`: 2% decay; overcrowding penalty against the
base-class `capacity` attribute, floored at 0; viral boost above 0.8 capped
at 1; append to the history. -/
def HotspotState.updatePopularity (h : HotspotState) : HotspotState :=
  let p1 := h.currentPopularity * (1 - 1/50)
  let p2 := if h.capacity < (h.visitorsToday : ℚ) then
      max 0 (p1 - ((h.visitorsToday : ℚ) - h.capacity) / h.capacity * (1/2))
    else p1
  let p3 := if 4/5 < p2 then min 1 (p2 + (p2 - 4/5) * (1/10)) else p2
  { h with currentPopularity := p3,
           popularityHistory := h.popularityHistory ++ [p3] }

/-- `Hotspot.reset_daily_counters`: rolls `visitors_today` into
`total_visitors` (which `record_visit` already incremented) and zeroes it. -/
def HotspotState.resetDailyCounters (h : HotspotState) : HotspotState :=
  { h with totalVisitors := h.totalVisitors + h.visitorsToday,
           visitorsToday := 0 }

/-- `Hotspot.step`: update popularity, then reset daily counters. -/
def HotspotState.step (h : HotspotState) : HotspotState :=
  h.updatePopularity.resetDailyCounters

/-- Keys of the appeal table, in insertion order
(`self.appeal_to_personas.keys()`). -/
def HotspotState.appealKeys (h : HotspotState) : List String :=
  h.appeal.map Prod.fst

/-- Python `dict[key] = value`: overwrite if present, append otherwise. -/
def dset (m : List (String × ℚ)) (p : String) (v : ℚ) : List (String × ℚ) :=
  if (alookup m p).isSome then aset m p v else m ++ [(p, v)]

/-- One iteration of the `appeal_boost` loop over `target_personas`: only
personas present in the appeal table are written. -/
def boostStep (boost : ℚ) (acc : HotspotState) (p : String) : HotspotState :=
  if (alookup acc.appeal p).isSome then
    acc.setAppeal p (min 1 (acc.getPersonaAppeal p + boost))
  else acc

/-- One iteration of the `appeal_reduction` loop over the table's keys. -/
def reduceStep (red : ℚ) (acc : HotspotState) (p : String) : HotspotState :=
  acc.setAppeal p (max 0 (acc.getPersonaAppeal p - red))

/-- `ScenarioAwareHotspot.process_event`: dispatch on the event's type
string; every recognised branch appends one message to `active_events`
(modelled by its length), unknown types are silently ignored. -/
def HotspotState.processEvent (h : HotspotState) (e : Event) : HotspotState :=
  if e.type = "capacity_boost" then
    { h with effectiveCapacity :=
               h.baseCapacity * e.params.getNum "capacity_multiplier" 1,
             activeEvents := h.activeEvents + 1 }
  else if e.type = "capacity_reset" then
    { h with effectiveCapacity := h.baseCapacity,
             activeEvents := h.activeEvents + 1 }
  else if e.type = "appeal_boost" then
    let h' := (e.params.getStrs "target_personas").foldl
      (boostStep (e.params.getNum "appeal_boost" 0)) h
    { h' with activeEvents := h'.activeEvents + 1 }
  else if e.type = "appeal_reset" then
    { h with appeal := h.baseAppeal, activeEvents := h.activeEvents + 1 }
  else if e.type = "accessibility_reduction" then
    { h with accessibilityModifier :=
               1 + e.params.getNum "accessibility_penalty" 0,
             activeEvents := h.activeEvents + 1 }
  else if e.type = "construction_complete" then
    { h with accessibilityModifier :=
               max (1/10) (1 - e.params.getNum "accessibility_bonus" 0),
             activeEvents := h.activeEvents + 1 }
  else if e.type = "noise_pollution" then
    let pen := e.params.getNum "satisfaction_penalty" 0
    { h with satisfactionModifiers :=
               h.appealKeys.foldl (fun m p => dset m p (-pen))
                 h.satisfactionModifiers,
             activeEvents := h.activeEvents + 1 }
  else if e.type = "appeal_reduction" then
    let h' := h.appealKeys.foldl
      (reduceStep (e.params.getNum "reduction" 0)) h
    { h' with activeEvents := h'.activeEvents + 1 }
  else h

/-- One iteration of the luxury-tax loop over the table's keys: the
"original" score is read from the `base_appeal_to_personas` entry (for dict
entries that cell is shared with the live table, see `setAppeal`). -/
def taxStep (pen : ℚ) (acc : HotspotState) (p : String) : HotspotState :=
  let origScore := match alookup acc.baseAppeal p with
    | some e => entryScore acc.heap e
    | none => 0
  acc.setAppeal p (max 0 (origScore - pen))

/-- The `capacity_limit` block of `apply_regulations`: hard override of
`effective_capacity` for the named hotspot. -/
def HotspotState.applyCapacityLimit (h : HotspotState) (regs : Regulations) :
    HotspotState :=
  match regs.capacityLimit with
  | some cl =>
      if cl.target = h.name then { h with effectiveCapacity := cl.newCapacity }
      else h
  | none => h

/-- The `luxury_tax` block of `apply_regulations`: for affected categories,
penalise every persona's appeal from its base entry. -/
def HotspotState.applyLuxuryTax (h : HotspotState) (regs : Regulations) :
    HotspotState :=
  match regs.luxuryTax with
  | some lt =>
      if h.category ∈ lt.affectedCategories then
        h.appealKeys.foldl (taxStep (lt.taxRate * (1/2))) h
      else h
  | none => h

/-- `ScenarioAwareHotspot.apply_regulations`: hard capacity override for a
named hotspot, then the luxury-tax appeal penalty recomputed from the
`base_appeal_to_personas` entry of each persona. -/
def HotspotState.applyRegulations (h : HotspotState) (regs : Regulations) :
    HotspotState :=
  (h.applyCapacityLimit regs).applyLuxuryTax regs

/-- One iteration of the `for event in scenario.events` loop of
`ScenarioAwareHotspot.apply_scenario_effects`: fire the event if it matches
this step and this hotspot's name and is not yet in `processed_events`
(Python `in` on a list of dicts, i.e. membership by dict equality), then
append it to `processed_events`. -/
def fireStep (currentStep : ℕ) (acc : HotspotState) (e : Event) :
    HotspotState :=
  if e.step = currentStep ∧ e.target = acc.name ∧
      e ∉ acc.processedEvents then
    let acc' := acc.processEvent e
    { acc' with processedEvents := acc'.processedEvents ++ [e] }
  else acc

/-- `ScenarioAwareHotspot.apply_scenario_effects` for a non-None scenario:
the scan of the full event list, then the standing regulations. -/
def HotspotState.applyScenarioEffects (h : HotspotState) (sc : Scenario)
    (currentStep : ℕ) : HotspotState :=
  (sc.events.foldl (fireStep currentStep) h).applyRegulations sc.regulations

/-- Input record for hotspot construction (the fields the core reads from the
JSON hotspot record). -/
structure HotspotData where
  name : String
  category : String
  x : ℤ
  y : ℤ
  initialPopularity : ℚ
  baseCapacity : ℚ
  appealInit : List (String × AppealInit)
deriving DecidableEq, Repr

/-- Lays out the `appeal_to_personas` record: dict-valued entries allocate a
shared heap cell, float entries are immediate. -/
def buildAppeal (l : List (String × AppealInit)) :
    List (String × AppealEntry) × List ℚ :=
  l.foldl
    (fun acc kv =>
      match kv.2 with
      | .raw v => (acc.1 ++ [(kv.1, .score v)], acc.2)
      | .dict v => (acc.1 ++ [(kv.1, .ref acc.2.length)], acc.2 ++ [v]))
    ([], [])

/-- `ScenarioAwareHotspot.__init__`: note `base_appeal_to_personas` is a
shallow `.copy()` of `appeal_to_personas`, so both tables carry the same
heap references for dict-valued entries. -/
def mkHotspot (uid : ℕ) (d : HotspotData) : HotspotState :=
  let ap := buildAppeal d.appealInit
  { uid := uid
    name := d.name
    category := d.category
    pos := (d.x, d.y)
    currentPopularity := d.initialPopularity
    baseCapacity := d.baseCapacity
    capacity := d.baseCapacity
    visitorsToday := 0
    totalVisitors := 0
    socialShares := 0
    popularityHistory := [d.initialPopularity]
    appeal := ap.1
    baseAppeal := ap.1
    heap := ap.2
    effectiveCapacity := d.baseCapacity
    accessibilityModifier := 1
    satisfactionModifiers := []
    activeEvents := 0
    processedEvents := [] }

/-- One entry of a tourist's `recommendations_received` inbox (the fields the
scoring loop reads; the diagnostic `step` field is omitted). -/
structure RecRecord where
  hotspotId : ℕ
  strength : ℚ
  fromPersona : String
deriving DecidableEq, Repr

/-- State of a `ScenarioAwareTourist` (persona traits are flattened in, as
the agent reads them; the five scenario behaviour modifiers are the
`scenario_modifiers` dict). -/
structure TouristState where
  personaType : String
  socialInfluence : ℚ
  recommendationTrust : ℚ
  explorationTendency : ℚ
  dailyVisits : ℕ
  sharingProbability : ℚ
  influenceOnSimilar : ℚ
  influenceOnDifferent : ℚ
  pos : ℤ × ℤ
  currentHotspot : Option ℕ
  visitedHotspots : List ℕ
  satisfaction : ℚ
  recommendationsReceived : List RecRecord
  visitsToday : ℕ
  totalVisits : ℕ
  satisfactionModifier : ℚ
  appealSensitivity : ℚ
  costSensitivity : ℚ
  crowdingTolerance : ℚ
  sharingBoost : ℚ
deriving DecidableEq, Repr

/-- The modifier reset at the top of
`ScenarioAwareTourist.apply_scenario_effects`. -/
def TouristState.resetModifiers (t : TouristState) : TouristState :=
  { t with satisfactionModifier := 0, appealSensitivity := 1,
           costSensitivity := 1, crowdingTolerance := 1, sharingBoost := 1 }

/-- `ScenarioAwareTourist._process_persona_event`: only
`satisfaction_penalty` and `appeal_boost` have handlers; other types no-op. -/
def TouristState.processPersonaEvent (t : TouristState) (e : Event) :
    TouristState :=
  if e.type = "satisfaction_penalty" then
    { t with satisfactionModifier :=
               t.satisfactionModifier - e.params.getNum "penalty" 0 }
  else if e.type = "appeal_boost" then
    { t with appealSensitivity :=
               t.appealSensitivity + e.params.getNum "boost" 0 }
  else t

/-- `ScenarioAwareTourist._apply_external_factor`: the four recognised
factor names; additive for `satisfaction_modifier` targets, `1.0 + value`
for the others; unknown names are ignored. -/
def TouristState.applyExternalFactor (t : TouristState) (name : String)
    (v : ℚ) : TouristState :=
  if name = "cost_sensitivity" then { t with costSensitivity := 1 + v }
  else if name = "event_excitement" then
    { t with satisfactionModifier := t.satisfactionModifier + v }
  else if name = "inconvenience_tolerance" then
    { t with satisfactionModifier := t.satisfactionModifier + v }
  else if name = "noise_tolerance" then { t with crowdingTolerance := 1 + v }
  else t

/-- One iteration of the tourist's event scan: fire persona-targeted events
of this step (no processed-set on the tourist side). -/
def personaEventStep (currentStep : ℕ) (acc : TouristState) (e : Event) :
    TouristState :=
  if e.step = currentStep ∧ e.target = acc.personaType then
    acc.processPersonaEvent e
  else acc

/-- One iteration of the external-factor loop. -/
def extFactorStep (acc : TouristState) (kv : String × ℚ) : TouristState :=
  acc.applyExternalFactor kv.1 kv.2

/-- `ScenarioAwareTourist.apply_scenario_effects` for a non-None scenario:
reset the modifiers, process events of this step targeting this persona type,
then re-apply external factors. -/
def TouristState.applyScenarioEffects (t : TouristState) (sc : Scenario)
    (currentStep : ℕ) : TouristState :=
  sc.externalFactors.foldl extFactorStep
    (sc.events.foldl (personaEventStep currentStep) t.resetModifiers)

/-- Randomness and irrational-arithmetic oracles: `npDraws` abstracts the
`np.random.choice` draws, `pyDraws` the `random.random()` draws (two
independent generators in the source), `sqrtQ` gives `np.sqrt` on the exact
squared distance. -/
structure Oracles where
  sqrtQ : ℕ → ℚ
  npDraws : ℕ → ℕ
  pyDraws : ℕ → ℚ

/-- The per-hotspot score of `Tourist.choose_hotspot`, clamped at 0:
persona appeal + 0.3·popularity + trusted matching recommendations −
0.05·distance + exploration bonus. -/
def touristScore (sqrtQ : ℕ → ℚ) (t : TouristState) (h : HotspotState) : ℚ :=
  let base := h.getPersonaAppeal t.personaType
  let pop := h.currentPopularity * (3/10)
  let recScore := (t.recommendationsReceived.filter
      (fun r => r.hotspotId = h.uid)).foldl
    (fun s r => s + r.strength * t.recommendationTrust) 0
  let dx := t.pos.1 - h.pos.1
  let dy := t.pos.2 - h.pos.2
  let distPenalty := sqrtQ (dx * dx + dy * dy).toNat * (1/20)
  let explore :=
    (if h.uid ∈ t.visitedHotspots then 0 else 1/5) * t.explorationTendency
  max 0 (base + pop + recScore - distPenalty + explore)

/-- The support-respecting abstraction of
`np.random.choice(ids, p=weights/sum)`: the draw selects one of the
positive-weight entries. -/
def weightedPick (draw : ℕ) (scored : List (ℕ × ℚ)) : ℕ :=
  let pos := scored.filter fun s => 0 < s.2
  (pos.getD (draw % pos.length) (0, 0)).1

/-- One row of the model-level data collector (the per-step metrics the
orchestrator records at the top of every `step()`). -/
structure MetricsRow where
  averagePopularity : ℚ
  totalVisitors : ℕ
  socialShares : ℕ
  averageSatisfaction : ℚ
  activeTourists : ℕ
  hotspotVisitsToday : ℕ
deriving DecidableEq, Repr

/-- State of the whole `ScenarioAwareTourismModel`: hotspot registry,
tourist population (both in registration order), active scenario (`scen`),
step counter, the two RNG stream positions, and the collected per-step
metrics series. -/
structure ModelState where
  hotspots : List HotspotState
  tourists : List TouristState
  scen : Option Scenario
  currentStep : ℕ
  npCounter : ℕ
  pyCounter : ℕ
  metrics : List MetricsRow
deriving DecidableEq, Repr

/-- `Tourist.choose_hotspot` for tourist `i`: skip when there are no
hotspots or when the clamped scores sum to 0; otherwise consume one
`np.random` draw, set the destination, and move to its grid cell. -/
def chooseHotspotStep (o : Oracles) (ms : ModelState) (i : ℕ) : ModelState :=
  match ms.tourists.get? i with
  | none => ms
  | some t =>
    if ms.hotspots = [] then ms
    else
      let scored := ms.hotspots.map fun h => (h.uid, touristScore o.sqrtQ t h)
      if 0 < scored.foldl (fun s x => s + x.2) 0 then
        let chosen := weightedPick (o.npDraws ms.npCounter) scored
        let hpos :=
          ((ms.hotspots.find? fun h => h.uid = chosen).map
            HotspotState.pos).getD t.pos
        { ms with
          tourists := ms.tourists.set i
            { t with currentHotspot := some chosen, pos := hpos },
          npCounter := ms.npCounter + 1 }
      else ms

/-- `ScenarioAwareTourist.visit_hotspot` for tourist `i`: record the visit
on the hotspot first, then compute the clamped satisfaction from the
(post-visit) capacity factor, the hotspot's per-persona scenario
satisfaction modifier and the tourist's own modifiers. -/
def visitHotspotStep (ms : ModelState) (i : ℕ) : ModelState :=
  match ms.tourists.get? i with
  | none => ms
  | some t =>
    match t.currentHotspot with
    | none => ms
    | some uid =>
      match ms.hotspots.find? (fun h => h.uid = uid) with
      | none => ms
      | some h =>
        let h1 := h.recordVisit
        let baseAppeal :=
          h1.getPersonaAppeal t.personaType * t.appealSensitivity
        let cf := (h1.getCapacityFactor - 1) * t.crowdingTolerance + 1
        let ssat := (alookup h1.satisfactionModifiers t.personaType).getD 0
        let sat :=
          max 0 (min 1 (baseAppeal * cf + ssat + t.satisfactionModifier))
        { ms with
          hotspots := ms.hotspots.map fun h2 =>
            if h2.uid = uid then h1 else h2,
          tourists := ms.tourists.set i
            { t with visitedHotspots := t.visitedHotspots ++ [uid],
                     visitsToday := t.visitsToday + 1,
                     totalVisits := t.totalVisits + 1,
                     satisfaction := sat } }

/-- `ScenarioAwareTourist.share_experience` for tourist `i`: one
`random.random()` draw (consumed whenever a destination is set), boost the
hotspot on success. -/
def shareStep (o : Oracles) (ms : ModelState) (i : ℕ) : ModelState :=
  match ms.tourists.get? i with
  | none => ms
  | some t =>
    match t.currentHotspot with
    | none => ms
    | some uid =>
      if o.pyDraws ms.pyCounter < t.sharingProbability * t.sharingBoost then
        match ms.hotspots.find? (fun h => h.uid = uid) with
        | none => { ms with pyCounter := ms.pyCounter + 1 }
        | some h =>
          { ms with
            pyCounter := ms.pyCounter + 1,
            hotspots := ms.hotspots.map fun h2 =>
              if h2.uid = uid then
                h.addSocialBoost (t.satisfaction * t.socialInfluence * (1/10))
              else h2 }
      else { ms with pyCounter := ms.pyCounter + 1 }

/-- Chebyshev distance between grid cells (Moore neighbourhoods). -/
def cheb (p q : ℤ × ℤ) : ℤ :=
  max (p.1 - q.1).natAbs (p.2 - q.2).natAbs

/-- Index-aware map (Python list iteration carrying the index). -/
def mapWithIndex {α : Type} (f : ℕ → α → α) : ℕ → List α → List α
  | _, [] => []
  | j, u :: rest => f j u :: mapWithIndex f (j + 1) rest

/-- `Tourist.make_recommendations` for tourist `i`: only with a destination
and satisfaction ≥ 0.6; every other tourist within Moore radius 3 (center
cell excluded, as in `grid.get_neighbors`) receives a recommendation scaled
by persona similarity and satisfaction. -/
def recommendStep (ms : ModelState) (i : ℕ) : ModelState :=
  match ms.tourists.get? i with
  | none => ms
  | some t =>
    match t.currentHotspot with
    | none => ms
    | some uid =>
      if t.satisfaction < 3/5 then ms
      else
        { ms with
          tourists := mapWithIndex (fun j u =>
            if j ≠ i ∧ 1 ≤ cheb t.pos u.pos ∧ cheb t.pos u.pos ≤ 3 then
              { u with recommendationsReceived :=
                  u.recommendationsReceived ++
                  [{ hotspotId := uid,
                     strength :=
                       (if u.personaType = t.personaType then
                          t.influenceOnSimilar
                        else t.influenceOnDifferent) * t.satisfaction,
                     fromPersona := t.personaType }] }
            else u) 0 ms.tourists }

/-- `Tourist.step` for tourist `i`: only while under the daily-visit budget,
run choose → visit → share → recommend. -/
def touristStep (o : Oracles) (ms : ModelState) (i : ℕ) : ModelState :=
  match ms.tourists.get? i with
  | none => ms
  | some t =>
    if t.visitsToday < t.dailyVisits then
      recommendStep (shareStep o (visitHotspotStep (chooseHotspotStep o ms i) i) i) i
    else ms

/-- The model reporters of the data collector: average popularity, total
visitors (`total_visitors + visitors_today` per hotspot), social shares,
average satisfaction, tourists under budget, visits today. -/
def collect (ms : ModelState) : MetricsRow :=
  { averagePopularity :=
      if ms.hotspots = [] then 0
      else (ms.hotspots.map HotspotState.currentPopularity).sum /
        ms.hotspots.length
    totalVisitors :=
      (ms.hotspots.map fun h => h.totalVisitors + h.visitorsToday).sum
    socialShares := (ms.hotspots.map HotspotState.socialShares).sum
    averageSatisfaction :=
      if ms.tourists = [] then 0
      else (ms.tourists.map TouristState.satisfaction).sum /
        ms.tourists.length
    activeTourists :=
      (ms.tourists.filter fun t => t.visitsToday < t.dailyVisits).length
    hotspotVisitsToday := (ms.hotspots.map HotspotState.visitorsToday).sum }

/-- The data-collection phase at the top of every `step()`. -/
def collectPhase (ms : ModelState) : ModelState :=
  { ms with metrics := ms.metrics ++ [collect ms] }

/-- The scenario phase: if a scenario is active, apply it to every hotspot
and tourist (hotspots registered first); with `scen = None` this phase is
skipped entirely (so tourist modifiers are *not* reset). -/
def scenPhase (ms : ModelState) : ModelState :=
  match ms.scen with
  | none => ms
  | some sc =>
      { ms with
        hotspots := ms.hotspots.map fun h =>
          HotspotState.applyScenarioEffects h sc ms.currentStep,
        tourists := ms.tourists.map fun t =>
          TouristState.applyScenarioEffects t sc ms.currentStep }

/-- The hotspot phase: every hotspot's decay/penalty/viral update and
daily-counter reset, in registration order. -/
def hotspotPhase (ms : ModelState) : ModelState :=
  { ms with hotspots := ms.hotspots.map HotspotState.step }

/-- The tourist phase: every tourist's choose/visit/share/recommend run,
mutating shared state in registration order. -/
def touristPhase (o : Oracles) (ms : ModelState) : ModelState :=
  (List.range ms.tourists.length).foldl (touristStep o) ms

/-- `ScenarioAwareTourismModel.step`: collect metrics, apply the scenario,
step hotspots, step tourists, advance the step counter. -/
def modelStep (o : Oracles) (ms : ModelState) : ModelState :=
  let ms3 := touristPhase o (hotspotPhase (scenPhase (collectPhase ms)))
  { ms3 with currentStep := ms3.currentStep + 1 }

/-- `run_simulation(n)`: n calls of `step()`. -/
def runModel (o : Oracles) (n : ℕ) (ms : ModelState) : ModelState :=
  (modelStep o)^[n] ms

/-- `ScenarioAwareTourismModel.set_scenario`. -/
def setScen (ms : ModelState) (sc : Option Scenario) : ModelState :=
  { ms with scen := sc }

/-- The per-hotspot statistics snapshot of
`ScenarioAwareHotspot.get_statistics` (base fields plus the scenario
fields; the source's 3-decimal presentation rounding is dropped, which
preserves equality and inequality of underlying states). -/
structure HotspotStats where
  name : String
  category : String
  currentPopularity : ℚ
  visitorsToday : ℕ
  totalVisitors : ℕ
  socialShares : ℕ
  capacity : ℚ
  capacityUtilization : ℚ
  avgPopularity : ℚ
  effectiveCapacity : ℚ
  accessibilityModifier : ℚ
  activeEvents : ℕ
  processedEvents : ℕ
deriving DecidableEq, Repr

/-- `ScenarioAwareHotspot.get_statistics`. -/
def HotspotState.getStatistics (h : HotspotState) : HotspotStats :=
  { name := h.name
    category := h.category
    currentPopularity := h.currentPopularity
    visitorsToday := h.visitorsToday
    totalVisitors := h.totalVisitors
    socialShares := h.socialShares
    capacity := h.capacity
    capacityUtilization := (h.visitorsToday : ℚ) / max 1 h.capacity
    avgPopularity :=
      if h.popularityHistory = [] then 0
      else h.popularityHistory.sum / h.popularityHistory.length
    effectiveCapacity := h.effectiveCapacity
    accessibilityModifier := h.accessibilityModifier
    activeEvents := h.activeEvents
    processedEvents := h.processedEvents.length }

/-- The sequence of scenario applications and daily updates a hotspot
undergoes over the ticks `0, 1, …, T-1` of a run (each tick: event/regulation
application, then `step()`); tourists' `record_visit`/`add_social_boost`
touch neither `processed_events` nor `name`, so this carries exactly the
event-processing trace of a full run. -/
def hotspotRun (sc : Scenario) (T : ℕ) (h : HotspotState) : HotspotState :=
  (List.range T).foldl (fun acc k => (acc.applyScenarioEffects sc k).step) h

/-- The popularity invariant of one hotspot. -/
def InvH (h : HotspotState) : Prop :=
  0 ≤ h.currentPopularity ∧ h.currentPopularity ≤ 1

/-- The satisfaction invariant of one tourist, together with the
nonnegative-trait assumption on the persona's `social_influence` (which the
social boost amount is scaled by). -/
def InvT (t : TouristState) : Prop :=
  0 ≤ t.satisfaction ∧ t.satisfaction ≤ 1 ∧ 0 ≤ t.socialInfluence

/-- The run invariant of claim C6. -/
def Inv (ms : ModelState) : Prop :=
  (∀ h ∈ ms.hotspots, InvH h) ∧ ∀ t ∈ ms.tourists, InvT t

instance : DecidablePred InvH := fun h => by
  unfold InvH; infer_instance

instance : DecidablePred InvT := fun t => by
  unfold InvT; infer_instance

instance : DecidablePred Inv := fun ms => by
  unfold Inv; infer_instance

/-- Overwrite the five scenario behaviour modifiers of a tourist. -/
def setModifiers (t : TouristState) (a b c d e : ℚ) : TouristState :=
  { t with satisfactionModifier := a, appealSensitivity := b,
           costSensitivity := c, crowdingTolerance := d, sharingBoost := e }

/-- Events whose only hotspot effect is on `accessibility_modifier`. -/
def isAccEvent (e : Event) : Bool :=
  e.type == "accessibility_reduction" || e.type == "construction_complete"

/-- Erase the accessibility-derived hotspot state: the modifier itself, the
`active_events` tally, and the processed-event entries of accessibility
events. -/
def eraseAccH (h : HotspotState) : HotspotState :=
  { h with accessibilityModifier := 1, activeEvents := 0,
           processedEvents := h.processedEvents.filter fun e => !isAccEvent e }

/-- Erase accessibility events from a scenario's event list. -/
def eraseAccS (sc : Scenario) : Scenario :=
  { sc with events := sc.events.filter fun e => !isAccEvent e }

/-- Erase all accessibility-derived state of a model run configuration. -/
def eraseAcc (ms : ModelState) : ModelState :=
  { ms with hotspots := ms.hotspots.map eraseAccH,
            scen := ms.scen.map eraseAccS }

/-- The statistics snapshot restricted to its non-accessibility-derived
fields (everything except `accessibility_modifier`, `active_events`,
`processed_events`): read off the erased hotspot. -/
def coreStats (h : HotspotState) : HotspotStats :=
  (eraseAccH h).getStatistics

/-! Concrete sample inputs used by the counterexamples and witnesses.
The appeal tables follow the repository's canonical hotspot records, where
each `appeal_to_personas` entry is a dict `{"appeal_score": …, "reasons":
…}` (`AppealInit.dict`); `AppealInit.raw` covers the bare-float form that
`get_persona_appeal` also accepts. -/

/-- Hotspot record with a dict-valued appeal entry of 0.5 for persona "P". -/
def hdDict : HotspotData :=
  { name := "H", category := "luxury", x := 0, y := 0,
    initialPopularity := 1/2, baseCapacity := 10,
    appealInit := [("P", .dict (1/2))] }

/-- The sample hotspot built from `hdDict` (unique id 1). -/
def hDict : HotspotState := mkHotspot 1 hdDict

/-- Hotspot record with a dict-valued appeal entry of 0.9. -/
def hdDict9 : HotspotData := { hdDict with appealInit := [("P", .dict (9/10))] }

/-- Hotspot record with a bare-float appeal entry of 0.1. -/
def hdFloat : HotspotData := { hdDict with appealInit := [("P", .raw (1/10))] }

/-- The sample hotspot built from `hdFloat`. -/
def hFloat : HotspotState := mkHotspot 1 hdFloat

/-- An `appeal_boost` event of +0.2 listing persona "P". -/
def evBoostP : Event :=
  { step := 0, type := "appeal_boost", target := "H",
    params := [("appeal_boost", .num (1/5)), ("target_personas", .strs ["P"])],
    description := "boost P", reasoning := "" }

/-- An `appeal_boost` event of +0.3 listing persona "P" (same step, target
and type as `evBoostP`, different parameters). -/
def evBoostP3 : Event :=
  { step := 0, type := "appeal_boost", target := "H",
    params := [("appeal_boost", .num (3/10)), ("target_personas", .strs ["P"])],
    description := "boost P more", reasoning := "" }

/-- An `appeal_reset` event. -/
def evReset : Event :=
  { step := 1, type := "appeal_reset", target := "H",
    params := [], description := "reset", reasoning := "" }

/-- A `capacity_boost` event doubling capacity. -/
def evCapBoost2 : Event :=
  { step := 0, type := "capacity_boost", target := "H",
    params := [("capacity_multiplier", .num 2)],
    description := "double capacity", reasoning := "" }

/-- An `appeal_boost` event whose parameter map has no `target_personas`. -/
def evBoostNoTargets : Event :=
  { step := 0, type := "appeal_boost", target := "H",
    params := [("appeal_boost", .num (1/5))],
    description := "boost all?", reasoning := "" }

/-- An `accessibility_reduction` event with penalty 0.5. -/
def evAccRed : Event :=
  { step := 0, type := "accessibility_reduction", target := "H",
    params := [("accessibility_penalty", .num (1/2))],
    description := "roadworks", reasoning := "" }

/-- The empty regulations dict. -/
def regsNone : Regulations := { capacityLimit := none, luxuryTax := none }

/-- A `luxury_tax` regulation at rate 0.4 hitting the "luxury" category. -/
def regsLuxTax : Regulations :=
  { capacityLimit := none,
    luxuryTax := some { affectedCategories := ["luxury"], taxRate := 2/5 } }

/-- A scenario holding the two same-triple boost events. -/
def scTwoBoosts : Scenario :=
  { events := [evBoostP, evBoostP3], regulations := regsNone,
    externalFactors := [] }

/-- A scenario with only the `event_excitement` external factor +0.5. -/
def scExcite : Scenario :=
  { events := [], regulations := regsNone,
    externalFactors := [("event_excitement", 1/2)] }

/-- An empty scenario. -/
def scEmpty : Scenario :=
  { events := [], regulations := regsNone, externalFactors := [] }

/-- A scenario whose only event is the accessibility reduction. -/
def scAccRed : Scenario :=
  { events := [evAccRed], regulations := regsNone, externalFactors := [] }

/-- A scenario whose only event is `evBoostP` (single-event exactly-once
witness input). -/
def scOneBoost : Scenario :=
  { events := [evBoostP], regulations := regsNone, externalFactors := [] }

/-- A sample tourist of persona "P" with neutral modifiers; `dailyVisits`
0 keeps its behaviour step inert where a claim is only about the scenario
phase. -/
def tBase : TouristState :=
  { personaType := "P", socialInfluence := 1/2, recommendationTrust := 1/2,
    explorationTendency := 1/2, dailyVisits := 0, sharingProbability := 1/2,
    influenceOnSimilar := 1/2, influenceOnDifferent := 3/10, pos := (0, 0),
    currentHotspot := none, visitedHotspots := [], satisfaction := 1/2,
    recommendationsReceived := [], visitsToday := 0, totalVisits := 0,
    satisfactionModifier := 0, appealSensitivity := 1, costSensitivity := 1,
    crowdingTolerance := 1, sharingBoost := 1 }

/-- Oracle instantiation for the concrete runs below: every distance used is
0 (tourist and hotspot share a cell), where the true `np.sqrt` is 0; the
`random.random()` stream returns 1, above every sharing probability. -/
def oZero : Oracles :=
  { sqrtQ := fun _ => 0, npDraws := fun _ => 0, pyDraws := fun _ => 1 }

/-- Zero-appeal, zero-popularity hotspot record for the all-scores-zero
choice configuration. -/
def hdZero : HotspotData :=
  { name := "Z", category := "c", x := 0, y := 0, initialPopularity := 0,
    baseCapacity := 10, appealInit := [("P", .raw 0)] }

/-- Model configuration for claim C4: one tourist co-located with the single
hotspot, which it has already visited (no exploration bonus), zero appeal,
zero popularity, no recommendations — every clamped score is 0. -/
def msChoose : ModelState :=
  { hotspots := [mkHotspot 7 hdZero],
    tourists := [{ tBase with dailyVisits := 2, visitedHotspots := [7] }],
    scen := none, currentStep := 0, npCounter := 0, pyCounter := 0,
    metrics := [] }

/-- Model configuration for claim C9: one tourist, the excitement scenario
active. -/
def msExcite : ModelState :=
  { hotspots := [], tourists := [tBase], scen := some scExcite,
    currentStep := 0, npCounter := 0, pyCounter := 0, metrics := [] }

/-- Model configuration for claim C10, baseline: one hotspot, no tourists,
empty scenario. -/
def msAccA : ModelState :=
  { hotspots := [hDict], tourists := [], scen := some scEmpty,
    currentStep := 0, npCounter := 0, pyCounter := 0, metrics := [] }

/-- Model configuration for claim C10, variant: identical to `msAccA`
except that the scenario carries the accessibility-reduction event. -/
def msAccB : ModelState := { msAccA with scen := some scAccRed }

/-! Theorems.  One theorem per claim of the specification audit, with
shared helper lemmas; closed evaluation theorems exhibit concrete
behaviours of the embedded code. -/

/-- Claim C1 (code bug): `record_visit` increments `total_visitors` and
`reset_daily_counters` then adds `visitors_today` on top, so one recorded
visit followed by one completed tick leaves `total_visitors = 2`, not the
1 call the round-trip property demands. -/
theorem C1_total_visitors_double_counted :
    (hDict.recordVisit.step).totalVisitors = 2 ∧
      hDict.totalVisitors = 0 := by decide

/-- Claim C2 (code bug): with the repository's dict-valued appeal records,
`base_appeal_to_personas` is a shallow copy sharing the inner
`{"appeal_score": …}` dicts, so an `appeal_boost` writes through to the
"base snapshot" and a later `appeal_reset` restores the boosted 0.7, not
the construction-time 0.5. -/
theorem C2_appeal_reset_fails_on_dict_entries :
    hDict.getPersonaAppeal "P" = 1/2 ∧
      ((hDict.processEvent evBoostP).processEvent evReset).getPersonaAppeal
        "P" = 7/10 :=
  ⟨by with_unfolding_all rfl, by with_unfolding_all rfl⟩

/-- Claim C7 (code bug): for a dict-valued appeal entry the luxury-tax
write `appeal_to_personas[p]["appeal_score"] = …` lands in the very cell
`base_appeal_to_personas[p]` aliases, so re-applying the regulation on the
next tick reads the already-taxed score and the penalty compounds:
0.9 → 0.7 → 0.5 instead of staying at max(0, 0.9 − 0.4·0.5) = 0.7. -/
theorem C7_luxury_tax_compounds_on_dict_entries :
    ((mkHotspot 1 hdDict9).applyRegulations regsLuxTax).getPersonaAppeal "P"
        = 7/10 ∧
      (((mkHotspot 1 hdDict9).applyRegulations regsLuxTax).applyRegulations
          regsLuxTax).getPersonaAppeal "P" = 1/2 :=
  ⟨by with_unfolding_all rfl, by with_unfolding_all rfl⟩

/-- Claim C3 counterexample: a `ScenarioAwareHotspot` with base capacity 10
whose `capacity_boost` event set `effective_capacity` to 20 still pays the
overcrowding penalty for 15 visitors (15 ≤ 20, so the claim predicts
popularity 0.5·0.98 = 0.49): `update_popularity` compares against the
base-class `capacity` attribute and yields max(0, 0.49 − 0.25) = 0.24. -/
theorem C3_penalty_ignores_effective_capacity :
    (HotspotState.recordVisit^[15]
          (hDict.processEvent evCapBoost2)).effectiveCapacity = 20 ∧
      ((HotspotState.recordVisit^[15]
            (hDict.processEvent evCapBoost2)).updatePopularity).currentPopularity
          = 6/25 ∧
      (6/25 : ℚ) ≠ 49/100 :=
  ⟨by with_unfolding_all rfl, by with_unfolding_all rfl, by norm_num⟩

/-- Claim C4 counterexample: with one hotspot whose clamped score is 0 (zero
appeal, zero popularity, already visited, co-located so the distance term is
0), `choose_hotspot` falls into neither branch — the state is returned
unchanged and the tourist's destination stays `None`, instead of the uniform
fallback the claim requires. -/
theorem C4_no_uniform_fallback :
    chooseHotspotStep oZero msChoose 0 = msChoose ∧
      (msChoose.tourists.map TouristState.currentHotspot) = [none] :=
  ⟨by with_unfolding_all rfl, by with_unfolding_all rfl⟩

/-- Claim C5 counterexample: two events sharing the (step, target, type)
triple (0, "H", appeal_boost) but with different parameter dicts are both
fired in the same scan — the processed-set membership test is Python dict
equality, not triple identity — so the triple's effect is applied twice
(0.1 → 0.3 → 0.6). -/
theorem C5_same_triple_fires_twice :
    evBoostP.step = evBoostP3.step ∧ evBoostP.target = evBoostP3.target ∧
      evBoostP.type = evBoostP3.type ∧ evBoostP ≠ evBoostP3 ∧
      (hFloat.applyScenarioEffects scTwoBoosts 0).getPersonaAppeal "P"
        = 3/5 ∧
      (hFloat.applyScenarioEffects scTwoBoosts 0).processedEvents.length
        = 2 :=
  ⟨rfl, rfl, rfl, by with_unfolding_all decide, by with_unfolding_all rfl,
    by with_unfolding_all rfl⟩

/-- Claim C8 counterexample: an `appeal_boost` event whose parameters omit
`target_personas` iterates over the default empty list and boosts no
persona at all (the appeal stays 0.1 instead of the claimed
min(1, 0.1 + 0.2) = 0.3). -/
theorem C8_unspecified_personas_boost_nothing :
    (hFloat.processEvent evBoostNoTargets).getPersonaAppeal "P" = 1/10 ∧
      (1/10 : ℚ) ≠ min 1 (1/10 + 1/5) :=
  ⟨by with_unfolding_all rfl, by norm_num⟩

/-- Claim C9 counterexample: tick 1 runs with the excitement scenario
(modifier becomes +0.5); the scenario is then cleared via `set_scenario`;
on tick 2 `apply_scenario_effects` is never invoked (the model guards on a
truthy scenario and the method returns before the reset on a falsy one), so
the tourist enters and leaves the tick with the stale 0.5 instead of the
neutral 0.0 the claim requires. -/
theorem C9_modifiers_stale_after_scenario_cleared :
    ((modelStep oZero (setScen (modelStep oZero msExcite) none)).tourists.map
        TouristState.satisfactionModifier) = [1/2] ∧
      (1/2 : ℚ) ≠ 0 :=
  ⟨by with_unfolding_all rfl, by norm_num⟩

/-- Claim C10 counterexample: two one-tick runs that differ only in an
accessibility-reduction event produce statistics snapshots that differ not
only in `accessibility_modifier` but also in the `active_events` and
`processed_events` tallies. -/
theorem C10_snapshot_differs_beyond_accessibility :
    ((runModel oZero 1 msAccB).hotspots.map
          fun h => h.getStatistics.activeEvents) = [1] ∧
      ((runModel oZero 1 msAccA).hotspots.map
          fun h => h.getStatistics.activeEvents) = [0] ∧
      ((runModel oZero 1 msAccB).hotspots.map
          fun h => h.getStatistics.accessibilityModifier) = [3/2] :=
  ⟨by with_unfolding_all rfl, by with_unfolding_all rfl,
    by with_unfolding_all rfl⟩

/-- Folding addition of second components equals adding the list sum. -/
theorem foldl_add_snd (l : List (ℕ × ℚ)) (a : ℚ) :
    l.foldl (fun s x => s + x.2) a = a + (l.map Prod.snd).sum := by
  induction l generalizing a with
  | nil => simp
  | cons x rest ih => simp [List.foldl, ih, add_assoc]

/-- Claim C3, amended: the overcrowding penalty of `update_popularity` is
computed against the base-class `capacity` attribute (equal to
`base_capacity`), not against `effective_capacity`; in particular a
`capacity_boost` event leaves the penalty unchanged.  Stated for any
hotspot whose visitors exceed `capacity` and whose penalised popularity
stays below the viral threshold. -/
theorem C3_overcrowding_penalty_uses_base_capacity (h : HotspotState)
    (e : Event) (he : e.type = "capacity_boost")
    (hv : h.capacity < (h.visitorsToday : ℚ))
    (hp : max 0 (h.currentPopularity * (1 - 1/50) -
        ((h.visitorsToday : ℚ) - h.capacity) / h.capacity * (1/2)) ≤ 4/5) :
    ((h.processEvent e).updatePopularity).currentPopularity
      = max 0 (h.currentPopularity * (1 - 1/50) -
          ((h.visitorsToday : ℚ) - h.capacity) / h.capacity * (1/2)) := by
  simp only [HotspotState.processEvent, he, if_pos]
  simp only [HotspotState.updatePopularity]
  simp only [if_pos hv]
  rw [if_neg (not_lt.mpr hp)]

/-- Witness for the amended C3 theorem: the spec's concrete scenario
(base capacity 10, decay 0.02, 15 visits, popularity 0.5) after a
doubling `capacity_boost`. -/
theorem C3_overcrowding_penalty_uses_base_capacity_witness :
    (((HotspotState.recordVisit^[15] hDict).processEvent
          evCapBoost2).updatePopularity).currentPopularity
      = max 0 ((HotspotState.recordVisit^[15] hDict).currentPopularity *
            (1 - 1/50) -
          (((HotspotState.recordVisit^[15] hDict).visitorsToday : ℚ) -
              (HotspotState.recordVisit^[15] hDict).capacity) /
            (HotspotState.recordVisit^[15] hDict).capacity * (1/2)) :=
  C3_overcrowding_penalty_uses_base_capacity
    (HotspotState.recordVisit^[15] hDict) evCapBoost2 rfl
    (by with_unfolding_all decide) (by with_unfolding_all decide)

/-- Claim C4, amended: when every hotspot's clamped score is 0 (so the
score sum is 0) `choose_hotspot` performs no selection at all — the model
state (destination, position, RNG position) is returned unchanged — rather
than falling back to a uniform choice. -/
theorem C4_zero_scores_skip_selection (o : Oracles) (ms : ModelState)
    (i : ℕ) (t : TouristState) (ht : ms.tourists.get? i = some t)
    (hz : ∀ h ∈ ms.hotspots, touristScore o.sqrtQ t h = 0) :
    chooseHotspotStep o ms i = ms := by
  simp only [chooseHotspotStep, ht]
  by_cases hemp : ms.hotspots = []
  · simp [hemp]
  · rw [if_neg hemp, if_neg]
    rw [foldl_add_snd, List.map_map]
    have hs : (ms.hotspots.map
        ((fun x => x.2) ∘ fun h => (h.uid, touristScore o.sqrtQ t h))).sum
          = 0 := by
      apply List.sum_eq_zero
      intro q hq
      rcases List.mem_map.mp hq with ⟨h, hh, rfl⟩
      exact hz h hh
    simp [hs]

/-- Witness for the amended C4 theorem, at the all-zero-score
configuration. -/
theorem C4_zero_scores_skip_selection_witness :
    chooseHotspotStep oZero msChoose 0 = msChoose :=
  C4_zero_scores_skip_selection oZero msChoose 0
    { tBase with dailyVisits := 2, visitedHotspots := [7] } rfl
    (by
      intro h hh
      simp only [msChoose, List.mem_singleton] at hh
      subst hh
      with_unfolding_all rfl)

/-- Claim C8, amended: an `appeal_boost` event whose parameter map omits
`target_personas` boosts no persona at all (the loop runs over the default
empty list); the appeal of every persona is unchanged. -/
theorem C8_boost_only_listed_personas (h : HotspotState) (e : Event)
    (p : String) (he : e.type = "appeal_boost")
    (hn : alookup e.params "target_personas" = none) :
    (h.processEvent e).getPersonaAppeal p = h.getPersonaAppeal p := by
  simp [HotspotState.processEvent, he, Params.getStrs, hn,
    HotspotState.getPersonaAppeal]

/-- Witness for the amended C8 theorem. -/
theorem C8_boost_only_listed_personas_witness :
    (hFloat.processEvent evBoostNoTargets).getPersonaAppeal "P"
      = hFloat.getPersonaAppeal "P" :=
  C8_boost_only_listed_personas hFloat evBoostNoTargets "P" rfl rfl

/-- Claim C9, amended: while a scenario is active,
`apply_scenario_effects` begins by resetting the five behaviour modifiers,
so the modifiers a tourist carries into the call have no influence on its
result (the reset-then-recompute of the claim); the counterexample above
shows the reset does not happen on ticks whose scenario is `None`. -/
theorem C9_modifiers_reset_when_scenario_active (sc : Scenario) (k : ℕ)
    (t : TouristState) (a b c d e : ℚ) :
    (setModifiers t a b c d e).applyScenarioEffects sc k =
      t.applyScenarioEffects sc k := rfl

theorem setAppeal_name (h : HotspotState) (p : String) (v : ℚ) :
    (h.setAppeal p v).name = h.name := by
  unfold HotspotState.setAppeal
  split <;> rfl

theorem setAppeal_processedEvents (h : HotspotState) (p : String) (v : ℚ) :
    (h.setAppeal p v).processedEvents = h.processedEvents := by
  unfold HotspotState.setAppeal
  split <;> rfl

theorem foldl_preserve {α β : Type} (P : α → Prop) (f : α → β → α)
    (l : List β) (a : α) (h0 : P a) (hstep : ∀ b x, P b → P (f b x)) :
    P (l.foldl f a) :=
  List.foldlRecOn l f a h0 fun b hb x _ => hstep b x hb

theorem boostStep_name (q : ℚ) (b : HotspotState) (p : String) :
    (boostStep q b p).name = b.name := by
  unfold boostStep; split <;> simp [setAppeal_name]

theorem boostStep_processedEvents (q : ℚ) (b : HotspotState) (p : String) :
    (boostStep q b p).processedEvents = b.processedEvents := by
  unfold boostStep; split <;> simp [setAppeal_processedEvents]

theorem reduceStep_name (q : ℚ) (b : HotspotState) (p : String) :
    (reduceStep q b p).name = b.name := setAppeal_name b p _

theorem reduceStep_processedEvents (q : ℚ) (b : HotspotState) (p : String) :
    (reduceStep q b p).processedEvents = b.processedEvents :=
  setAppeal_processedEvents b p _

theorem taxStep_name (q : ℚ) (b : HotspotState) (p : String) :
    (taxStep q b p).name = b.name := setAppeal_name b p _

theorem taxStep_processedEvents (q : ℚ) (b : HotspotState) (p : String) :
    (taxStep q b p).processedEvents = b.processedEvents :=
  setAppeal_processedEvents b p _

theorem processEvent_name (h : HotspotState) (e : Event) :
    (h.processEvent e).name = h.name := by
  unfold HotspotState.processEvent
  split_ifs <;> try rfl
  · show ((e.params.getStrs "target_personas").foldl
        (boostStep (e.params.getNum "appeal_boost" 0)) h).name = h.name
    exact foldl_preserve (fun s => s.name = h.name)
      (boostStep (e.params.getNum "appeal_boost" 0)) _ h rfl
      fun b x hb => by simp only [boostStep_name]; exact hb
  · show (h.appealKeys.foldl
        (reduceStep (e.params.getNum "reduction" 0)) h).name = h.name
    exact foldl_preserve (fun s => s.name = h.name)
      (reduceStep (e.params.getNum "reduction" 0)) _ h rfl
      fun b x hb => by simp only [reduceStep_name]; exact hb

theorem processEvent_processedEvents (h : HotspotState) (e : Event) :
    (h.processEvent e).processedEvents = h.processedEvents := by
  unfold HotspotState.processEvent
  split_ifs <;> try rfl
  · show ((e.params.getStrs "target_personas").foldl
        (boostStep (e.params.getNum "appeal_boost" 0)) h).processedEvents
      = h.processedEvents
    exact foldl_preserve (fun s => s.processedEvents = h.processedEvents)
      (boostStep (e.params.getNum "appeal_boost" 0)) _ h rfl
      fun b x hb => by simp only [boostStep_processedEvents]; exact hb
  · show (h.appealKeys.foldl
        (reduceStep (e.params.getNum "reduction" 0)) h).processedEvents
      = h.processedEvents
    exact foldl_preserve (fun s => s.processedEvents = h.processedEvents)
      (reduceStep (e.params.getNum "reduction" 0)) _ h rfl
      fun b x hb => by simp only [reduceStep_processedEvents]; exact hb

theorem applyCapacityLimit_name (h : HotspotState) (regs : Regulations) :
    (h.applyCapacityLimit regs).name = h.name := by
  unfold HotspotState.applyCapacityLimit
  cases regs.capacityLimit with
  | none => rfl
  | some cl => dsimp only; split <;> rfl

theorem applyCapacityLimit_processedEvents (h : HotspotState)
    (regs : Regulations) :
    (h.applyCapacityLimit regs).processedEvents = h.processedEvents := by
  unfold HotspotState.applyCapacityLimit
  cases regs.capacityLimit with
  | none => rfl
  | some cl => dsimp only; split <;> rfl

theorem applyLuxuryTax_name (h : HotspotState) (regs : Regulations) :
    (h.applyLuxuryTax regs).name = h.name := by
  unfold HotspotState.applyLuxuryTax
  cases regs.luxuryTax with
  | none => rfl
  | some lt =>
    dsimp only
    split
    · exact foldl_preserve (fun s => s.name = h.name)
        (taxStep (lt.taxRate * (1/2))) _ h rfl
        fun b x hb => by simp only [taxStep_name]; exact hb
    · rfl

theorem applyLuxuryTax_processedEvents (h : HotspotState)
    (regs : Regulations) :
    (h.applyLuxuryTax regs).processedEvents = h.processedEvents := by
  unfold HotspotState.applyLuxuryTax
  cases regs.luxuryTax with
  | none => rfl
  | some lt =>
    dsimp only
    split
    · exact foldl_preserve
        (fun s => s.processedEvents = h.processedEvents)
        (taxStep (lt.taxRate * (1/2))) _ h rfl
        fun b x hb => by simp only [taxStep_processedEvents]; exact hb
    · rfl

theorem applyRegulations_name (h : HotspotState) (regs : Regulations) :
    (h.applyRegulations regs).name = h.name := by
  unfold HotspotState.applyRegulations
  rw [applyLuxuryTax_name, applyCapacityLimit_name]

theorem applyRegulations_processedEvents (h : HotspotState)
    (regs : Regulations) :
    (h.applyRegulations regs).processedEvents = h.processedEvents := by
  unfold HotspotState.applyRegulations
  rw [applyLuxuryTax_processedEvents, applyCapacityLimit_processedEvents]

theorem step_name (h : HotspotState) : h.step.name = h.name := rfl

theorem step_processedEvents (h : HotspotState) :
    h.step.processedEvents = h.processedEvents := rfl

theorem fireStep_name (k : ℕ) (acc : HotspotState) (e : Event) :
    (fireStep k acc e).name = acc.name := by
  unfold fireStep
  split
  · show (acc.processEvent e).name = acc.name
    exact processEvent_name acc e
  · rfl

theorem fireStep_processed_mono (k : ℕ) (acc : HotspotState) (e : Event) :
    acc.processedEvents ⊆ (fireStep k acc e).processedEvents := by
  unfold fireStep
  split
  · show acc.processedEvents ⊆ (acc.processEvent e).processedEvents ++ [e]
    rw [processEvent_processedEvents]
    exact List.subset_append_left _ _
  · exact List.Subset.refl _

theorem fireStep_nodup (k : ℕ) (acc : HotspotState) (e : Event)
    (hd : acc.processedEvents.Nodup) :
    (fireStep k acc e).processedEvents.Nodup := by
  unfold fireStep
  split
  · next hc =>
    show ((acc.processEvent e).processedEvents ++ [e]).Nodup
    rw [processEvent_processedEvents]
    simp [List.nodup_append, hd, hc.2.2]
  · exact hd

theorem scan_name (events : List Event) (k : ℕ) (acc : HotspotState) :
    (events.foldl (fireStep k) acc).name = acc.name :=
  foldl_preserve (fun s => s.name = acc.name) (fireStep k) events acc rfl
    fun b x hb => by simp only [fireStep_name]; exact hb

theorem scan_processed_mono (events : List Event) (k : ℕ)
    (acc : HotspotState) :
    acc.processedEvents ⊆ (events.foldl (fireStep k) acc).processedEvents :=
  foldl_preserve (fun s => acc.processedEvents ⊆ s.processedEvents)
    (fireStep k) events acc (List.Subset.refl _)
    fun b x hb => hb.trans (fireStep_processed_mono k b x)

theorem scan_nodup (events : List Event) (k : ℕ) (acc : HotspotState)
    (hd : acc.processedEvents.Nodup) :
    (events.foldl (fireStep k) acc).processedEvents.Nodup :=
  foldl_preserve (fun s => s.processedEvents.Nodup) (fireStep k) events acc
    hd fun b x hb => fireStep_nodup k b x hb

theorem scan_mem (events : List Event) (k : ℕ) (acc : HotspotState)
    (e : Event) (he : e ∈ events) (hs : e.step = k)
    (ht : e.target = acc.name) :
    e ∈ (events.foldl (fireStep k) acc).processedEvents := by
  induction events generalizing acc with
  | nil => cases he
  | cons a rest ih =>
    rw [List.foldl_cons]
    rcases List.mem_cons.mp he with rfl | hr
    · -- the scanned event is e itself: after this iteration e is processed
      have hmem : e ∈ (fireStep k acc e).processedEvents := by
        unfold fireStep
        split
        · show e ∈ (acc.processEvent e).processedEvents ++ [e]
          simp
        · next hc =>
          push_neg at hc
          exact hc hs ht
      exact scan_processed_mono rest k _ hmem
    · exact ih _ hr (by rw [fireStep_name]; exact ht)

theorem applyScenarioEffects_name (h : HotspotState) (sc : Scenario)
    (k : ℕ) : (h.applyScenarioEffects sc k).name = h.name := by
  unfold HotspotState.applyScenarioEffects
  rw [applyRegulations_name, scan_name]

theorem applyScenarioEffects_processed_mono (h : HotspotState)
    (sc : Scenario) (k : ℕ) :
    h.processedEvents ⊆ (h.applyScenarioEffects sc k).processedEvents := by
  unfold HotspotState.applyScenarioEffects
  rw [applyRegulations_processedEvents]
  exact scan_processed_mono sc.events k h

theorem applyScenarioEffects_nodup (h : HotspotState) (sc : Scenario)
    (k : ℕ) (hd : h.processedEvents.Nodup) :
    (h.applyScenarioEffects sc k).processedEvents.Nodup := by
  unfold HotspotState.applyScenarioEffects
  rw [applyRegulations_processedEvents]
  exact scan_nodup sc.events k h hd

theorem applyScenarioEffects_mem (h : HotspotState) (sc : Scenario)
    (k : ℕ) (e : Event) (he : e ∈ sc.events) (hs : e.step = k)
    (ht : e.target = h.name) :
    e ∈ (h.applyScenarioEffects sc k).processedEvents := by
  unfold HotspotState.applyScenarioEffects
  rw [applyRegulations_processedEvents]
  exact scan_mem sc.events k h e he hs ht

theorem hotspotRun_succ (sc : Scenario) (T : ℕ) (h : HotspotState) :
    hotspotRun sc (T + 1) h
      = ((hotspotRun sc T h).applyScenarioEffects sc T).step := by
  unfold hotspotRun
  rw [List.range_succ, List.foldl_append, List.foldl_cons, List.foldl_nil]

theorem hotspotRun_name (sc : Scenario) (T : ℕ) (h : HotspotState) :
    (hotspotRun sc T h).name = h.name := by
  induction T with
  | zero => rfl
  | succ T ih =>
    rw [hotspotRun_succ, step_name, applyScenarioEffects_name, ih]

theorem hotspotRun_nodup (sc : Scenario) (T : ℕ) (h : HotspotState)
    (hd : h.processedEvents.Nodup) :
    (hotspotRun sc T h).processedEvents.Nodup := by
  induction T with
  | zero => exact hd
  | succ T ih =>
    rw [hotspotRun_succ, step_processedEvents]
    exact applyScenarioEffects_nodup _ sc T ih

theorem hotspotRun_mem (sc : Scenario) (T : ℕ) (h : HotspotState)
    (e : Event) (he : e ∈ sc.events) (hs : e.step < T)
    (ht : e.target = h.name) :
    e ∈ (hotspotRun sc T h).processedEvents := by
  induction T with
  | zero => cases Nat.not_lt_zero _ hs
  | succ T ih =>
    rw [hotspotRun_succ, step_processedEvents]
    rcases Nat.lt_succ_iff_lt_or_eq.mp hs with hlt | heq
    · exact applyScenarioEffects_processed_mono _ sc T (ih hlt)
    · exact applyScenarioEffects_mem _ sc T e he heq
        (by rw [hotspotRun_name]; exact ht)

/-- Claim C5, amended: at-most-once application is keyed by full event
dict equality; over any run every event dict that occurs in the scenario,
whose step falls inside the run and whose target matches the hotspot's
name, ends up exactly once in the processed-events set. -/
theorem C5_event_applied_exactly_once (sc : Scenario) (T : ℕ)
    (h : HotspotState) (h0 : h.processedEvents = []) (e : Event)
    (he : e ∈ sc.events) (hs : e.step < T) (ht : e.target = h.name) :
    (hotspotRun sc T h).processedEvents.count e = 1 :=
  List.count_eq_one_of_mem
    (hotspotRun_nodup sc T h (by rw [h0]; exact List.nodup_nil))
    (hotspotRun_mem sc T h e he hs ht)

/-- Witness for the amended C5 theorem: a one-event scenario over one
tick. -/
theorem C5_event_applied_exactly_once_witness :
    (hotspotRun scOneBoost 1 hFloat).processedEvents.count evBoostP = 1 :=
  C5_event_applied_exactly_once scOneBoost 1 hFloat rfl evBoostP
    (by simp [scOneBoost]) (by decide) rfl

theorem setAppeal_pop (h : HotspotState) (p : String) (v : ℚ) :
    (h.setAppeal p v).currentPopularity = h.currentPopularity := by
  unfold HotspotState.setAppeal
  split <;> rfl

theorem boostStep_pop (q : ℚ) (b : HotspotState) (p : String) :
    (boostStep q b p).currentPopularity = b.currentPopularity := by
  unfold boostStep; split <;> simp [setAppeal_pop]

theorem reduceStep_pop (q : ℚ) (b : HotspotState) (p : String) :
    (reduceStep q b p).currentPopularity = b.currentPopularity :=
  setAppeal_pop b p _

theorem taxStep_pop (q : ℚ) (b : HotspotState) (p : String) :
    (taxStep q b p).currentPopularity = b.currentPopularity :=
  setAppeal_pop b p _

theorem processEvent_pop (h : HotspotState) (e : Event) :
    (h.processEvent e).currentPopularity = h.currentPopularity := by
  unfold HotspotState.processEvent
  split_ifs <;> try rfl
  · show ((e.params.getStrs "target_personas").foldl
        (boostStep (e.params.getNum "appeal_boost" 0)) h).currentPopularity
      = h.currentPopularity
    exact foldl_preserve
      (fun s => s.currentPopularity = h.currentPopularity)
      (boostStep (e.params.getNum "appeal_boost" 0)) _ h rfl
      fun b x hb => by simp only [boostStep_pop]; exact hb
  · show (h.appealKeys.foldl
        (reduceStep (e.params.getNum "reduction" 0)) h).currentPopularity
      = h.currentPopularity
    exact foldl_preserve
      (fun s => s.currentPopularity = h.currentPopularity)
      (reduceStep (e.params.getNum "reduction" 0)) _ h rfl
      fun b x hb => by simp only [reduceStep_pop]; exact hb

theorem applyCapacityLimit_pop (h : HotspotState) (regs : Regulations) :
    (h.applyCapacityLimit regs).currentPopularity = h.currentPopularity := by
  unfold HotspotState.applyCapacityLimit
  cases regs.capacityLimit with
  | none => rfl
  | some cl => dsimp only; split <;> rfl

theorem applyLuxuryTax_pop (h : HotspotState) (regs : Regulations) :
    (h.applyLuxuryTax regs).currentPopularity = h.currentPopularity := by
  unfold HotspotState.applyLuxuryTax
  cases regs.luxuryTax with
  | none => rfl
  | some lt =>
    dsimp only
    split
    · exact foldl_preserve
        (fun s => s.currentPopularity = h.currentPopularity)
        (taxStep (lt.taxRate * (1/2))) _ h rfl
        fun b x hb => by simp only [taxStep_pop]; exact hb
    · rfl

theorem applyRegulations_pop (h : HotspotState) (regs : Regulations) :
    (h.applyRegulations regs).currentPopularity = h.currentPopularity := by
  unfold HotspotState.applyRegulations
  rw [applyLuxuryTax_pop, applyCapacityLimit_pop]

theorem fireStep_pop (k : ℕ) (acc : HotspotState) (e : Event) :
    (fireStep k acc e).currentPopularity = acc.currentPopularity := by
  unfold fireStep
  split
  · show (acc.processEvent e).currentPopularity = acc.currentPopularity
    exact processEvent_pop acc e
  · rfl

theorem applyScenarioEffects_pop (h : HotspotState) (sc : Scenario)
    (k : ℕ) :
    (h.applyScenarioEffects sc k).currentPopularity
      = h.currentPopularity := by
  unfold HotspotState.applyScenarioEffects
  rw [applyRegulations_pop]
  exact foldl_preserve
    (fun s => s.currentPopularity = h.currentPopularity) (fireStep k)
    sc.events h rfl fun b x hb => by simp only [fireStep_pop]; exact hb

theorem updatePopularity_InvH (h : HotspotState) (hI : InvH h) :
    InvH h.updatePopularity := by
  obtain ⟨h0, _⟩ := hI
  unfold HotspotState.updatePopularity InvH
  dsimp only
  have hp1 : (0 : ℚ) ≤ h.currentPopularity * (1 - 1/50) :=
    mul_nonneg h0 (by norm_num)
  constructor <;> split_ifs with hc hv hv
  · exact le_min (by norm_num)
      (by have := le_max_left (0 : ℚ)
            (h.currentPopularity * (1 - 1/50) -
              ((h.visitorsToday : ℚ) - h.capacity) / h.capacity * (1/2))
          linarith)
  · exact le_max_left 0 _
  · exact le_min (by norm_num) (by linarith)
  · exact hp1
  · exact min_le_left _ _
  · have := not_lt.mp hv; linarith
  · exact min_le_left _ _
  · have := not_lt.mp hv; linarith

theorem processPersonaEvent_sat (t : TouristState) (e : Event) :
    (t.processPersonaEvent e).satisfaction = t.satisfaction := by
  unfold TouristState.processPersonaEvent
  split_ifs <;> rfl

theorem processPersonaEvent_social (t : TouristState) (e : Event) :
    (t.processPersonaEvent e).socialInfluence = t.socialInfluence := by
  unfold TouristState.processPersonaEvent
  split_ifs <;> rfl

theorem applyExternalFactor_sat (t : TouristState) (n : String) (v : ℚ) :
    (t.applyExternalFactor n v).satisfaction = t.satisfaction := by
  unfold TouristState.applyExternalFactor
  split_ifs <;> rfl

theorem applyExternalFactor_social (t : TouristState) (n : String) (v : ℚ) :
    (t.applyExternalFactor n v).socialInfluence = t.socialInfluence := by
  unfold TouristState.applyExternalFactor
  split_ifs <;> rfl

theorem personaEventStep_sat (k : ℕ) (t : TouristState) (e : Event) :
    (personaEventStep k t e).satisfaction = t.satisfaction := by
  unfold personaEventStep
  split
  · exact processPersonaEvent_sat t e
  · rfl

theorem personaEventStep_social (k : ℕ) (t : TouristState) (e : Event) :
    (personaEventStep k t e).socialInfluence = t.socialInfluence := by
  unfold personaEventStep
  split
  · exact processPersonaEvent_social t e
  · rfl

theorem extFactorStep_sat (t : TouristState) (kv : String × ℚ) :
    (extFactorStep t kv).satisfaction = t.satisfaction :=
  applyExternalFactor_sat t kv.1 kv.2

theorem extFactorStep_social (t : TouristState) (kv : String × ℚ) :
    (extFactorStep t kv).socialInfluence = t.socialInfluence :=
  applyExternalFactor_social t kv.1 kv.2

theorem touristApply_sat (t : TouristState) (sc : Scenario) (k : ℕ) :
    (t.applyScenarioEffects sc k).satisfaction = t.satisfaction := by
  unfold TouristState.applyScenarioEffects
  have h1 : (sc.events.foldl (personaEventStep k)
      t.resetModifiers).satisfaction = t.satisfaction :=
    foldl_preserve (fun s => s.satisfaction = t.satisfaction)
      (personaEventStep k) sc.events t.resetModifiers rfl
      fun b x hb => by simp only [personaEventStep_sat]; exact hb
  exact foldl_preserve (fun s => s.satisfaction = t.satisfaction)
    extFactorStep sc.externalFactors _ h1
    fun b x hb => by simp only [extFactorStep_sat]; exact hb

theorem touristApply_social (t : TouristState) (sc : Scenario) (k : ℕ) :
    (t.applyScenarioEffects sc k).socialInfluence = t.socialInfluence := by
  unfold TouristState.applyScenarioEffects
  have h1 : (sc.events.foldl (personaEventStep k)
      t.resetModifiers).socialInfluence = t.socialInfluence :=
    foldl_preserve (fun s => s.socialInfluence = t.socialInfluence)
      (personaEventStep k) sc.events t.resetModifiers rfl
      fun b x hb => by simp only [personaEventStep_social]; exact hb
  exact foldl_preserve (fun s => s.socialInfluence = t.socialInfluence)
    extFactorStep sc.externalFactors _ h1
    fun b x hb => by simp only [extFactorStep_social]; exact hb

theorem touristApply_InvT (t : TouristState) (sc : Scenario) (k : ℕ)
    (hI : InvT t) : InvT (t.applyScenarioEffects sc k) := by
  unfold InvT at hI ⊢
  rw [touristApply_sat, touristApply_social]
  exact hI

theorem mapWithIndex_forall {α : Type} (f : ℕ → α → α) (P : α → Prop)
    (l : List α) (j : ℕ) (hl : ∀ u ∈ l, P u)
    (hf : ∀ j u, P u → P (f j u)) :
    ∀ u ∈ mapWithIndex f j l, P u := by
  induction l generalizing j with
  | nil => intro u hu; cases hu
  | cons a rest ih =>
    intro u hu
    rcases List.mem_cons.mp hu with rfl | hr
    · exact hf j a (hl a (List.mem_cons_self a rest))
    · exact ih (j + 1) (fun v hv => hl v (List.mem_cons_of_mem a hv)) u hr

theorem addSocialBoost_InvH (h : HotspotState) (b : ℚ) (hb : 0 ≤ b)
    (hI : InvH h) : InvH (h.addSocialBoost b) :=
  ⟨le_min (by norm_num) (add_nonneg hI.1 hb), min_le_left _ _⟩

theorem step_InvH (h : HotspotState) (hI : InvH h) : InvH h.step :=
  updatePopularity_InvH h hI

theorem chooseHotspotStep_Inv (o : Oracles) (ms : ModelState) (i : ℕ)
    (hI : Inv ms) : Inv (chooseHotspotStep o ms i) := by
  unfold chooseHotspotStep
  cases hg : ms.tourists.get? i with
  | none => exact hI
  | some t =>
    dsimp only
    split_ifs with hemp hsum
    · exact hI
    · obtain ⟨hH, hT⟩ := hI
      refine ⟨hH, fun u hu => ?_⟩
      rcases List.mem_or_eq_of_mem_set hu with hu' | rfl
      · exact hT u hu'
      · exact hT t (List.get?_mem hg)
    · exact hI

theorem visitHotspotStep_Inv (ms : ModelState) (i : ℕ) (hI : Inv ms) :
    Inv (visitHotspotStep ms i) := by
  unfold visitHotspotStep
  cases hg : ms.tourists.get? i with
  | none => exact hI
  | some t =>
    dsimp only
    cases t.currentHotspot with
    | none => exact hI
    | some uid =>
      try dsimp only
      cases hf : ms.hotspots.find? (fun h => h.uid = uid) with
      | none => exact hI
      | some h =>
        try dsimp only
        obtain ⟨hH, hT⟩ := hI
        constructor
        · intro h2 hh2
          rcases List.mem_map.mp hh2 with ⟨h3, hh3, rfl⟩
          try dsimp only
          split_ifs with hc
          · exact hH h (List.mem_of_find?_eq_some hf)
          · exact hH h3 hh3
        · intro u hu
          rcases List.mem_or_eq_of_mem_set hu with hu' | rfl
          · exact hT u hu'
          · exact ⟨le_max_left 0 _,
              max_le (by norm_num) (min_le_left _ _),
              (hT t (List.get?_mem hg)).2.2⟩

theorem shareStep_Inv (o : Oracles) (ms : ModelState) (i : ℕ)
    (hI : Inv ms) : Inv (shareStep o ms i) := by
  unfold shareStep
  cases hg : ms.tourists.get? i with
  | none => exact hI
  | some t =>
    dsimp only
    cases t.currentHotspot with
    | none => exact hI
    | some uid =>
      try dsimp only
      obtain ⟨hH, hT⟩ := hI
      have htI := hT t (List.get?_mem hg)
      split_ifs with hdraw
      · cases hf : ms.hotspots.find? (fun h => h.uid = uid) with
        | none => exact ⟨hH, hT⟩
        | some h =>
          refine ⟨fun h2 hh2 => ?_, hT⟩
          rcases List.mem_map.mp hh2 with ⟨h3, hh3, rfl⟩
          try dsimp only
          split_ifs with hc
          · exact addSocialBoost_InvH h _
              (mul_nonneg (mul_nonneg htI.1 htI.2.2) (by norm_num))
              (hH h (List.mem_of_find?_eq_some hf))
          · exact hH h3 hh3
      · exact ⟨hH, hT⟩

theorem recommendStep_Inv (ms : ModelState) (i : ℕ) (hI : Inv ms) :
    Inv (recommendStep ms i) := by
  unfold recommendStep
  cases hg : ms.tourists.get? i with
  | none => exact hI
  | some t =>
    dsimp only
    cases t.currentHotspot with
    | none => exact hI
    | some uid =>
      try dsimp only
      split_ifs with hsat
      · exact hI
      · obtain ⟨hH, hT⟩ := hI
        refine ⟨hH, ?_⟩
        refine mapWithIndex_forall _ InvT ms.tourists 0 hT ?_
        intro j u hu
        dsimp only
        split_ifs with hcond <;> exact hu

theorem touristStep_Inv (o : Oracles) (ms : ModelState) (i : ℕ)
    (hI : Inv ms) : Inv (touristStep o ms i) := by
  unfold touristStep
  cases hg : ms.tourists.get? i with
  | none => exact hI
  | some t =>
    dsimp only
    split_ifs with hbudget
    · exact recommendStep_Inv _ i
        (shareStep_Inv o _ i
          (visitHotspotStep_Inv _ i (chooseHotspotStep_Inv o ms i hI)))
    · exact hI

theorem scenPhase_Inv (ms : ModelState) (hI : Inv ms) :
    Inv (scenPhase ms) := by
  unfold scenPhase
  cases ms.scen with
  | none => exact hI
  | some sc =>
    dsimp only
    constructor
    · intro h2 hh2
      rcases List.mem_map.mp hh2 with ⟨h4, hh4, rfl⟩
      have := hI.1 h4 hh4
      unfold InvH at this ⊢
      rw [applyScenarioEffects_pop]
      exact this
    · intro u hu
      rcases List.mem_map.mp hu with ⟨u2, hu2, rfl⟩
      exact touristApply_InvT u2 sc _ (hI.2 u2 hu2)

theorem hotspotPhase_Inv (ms : ModelState) (hI : Inv ms) :
    Inv (hotspotPhase ms) := by
  refine ⟨fun h2 hh2 => ?_, hI.2⟩
  rcases List.mem_map.mp hh2 with ⟨h3, hh3, rfl⟩
  exact step_InvH h3 (hI.1 h3 hh3)

theorem touristPhase_Inv (o : Oracles) (ms : ModelState) (hI : Inv ms) :
    Inv (touristPhase o ms) :=
  foldl_preserve Inv (touristStep o) _ _ hI
    fun b x hb => touristStep_Inv o b x hb

theorem modelStep_Inv (o : Oracles) (ms : ModelState) (hI : Inv ms) :
    Inv (modelStep o ms) :=
  touristPhase_Inv o _ (hotspotPhase_Inv _ (scenPhase_Inv _ hI))

theorem runModel_Inv (o : Oracles) (n : ℕ) (ms : ModelState)
    (hI : Inv ms) : Inv (runModel o n ms) := by
  unfold runModel
  induction n with
  | zero => exact hI
  | succ n ih =>
    rw [Function.iterate_succ_apply']
    exact modelStep_Inv o _ ih


/-- Claim C6 (confirmed): the interval invariant of the run.  Under the
claim's hypotheses — every hotspot popularity in [0,1], every tourist
satisfaction in [0,1] (0.5 at construction) and nonnegative
social-influence traits — every tick of the model preserves the invariant,
for any number of ticks; the per-operation lemmas above
(`chooseHotspotStep_Inv`, `visitHotspotStep_Inv`, `shareStep_Inv`,
`recommendStep_Inv`, `updatePopularity_InvH`, `addSocialBoost_InvH`)
establish it after every individual operation inside a tick as well. -/
theorem C6_popularity_satisfaction_in_unit_interval (o : Oracles) (n : ℕ)
    (ms : ModelState) (hI : Inv ms) : Inv (runModel o n ms) :=
  runModel_Inv o n ms hI

/-- Witness for C6 at a concrete two-tick run. -/
theorem C6_popularity_satisfaction_in_unit_interval_witness :
    Inv (runModel oZero 2 msChoose) :=
  C6_popularity_satisfaction_in_unit_interval oZero 2 msChoose
    (by with_unfolding_all decide)

theorem filter_idem {α : Type} (p : α → Bool) (l : List α) :
    (l.filter p).filter p = l.filter p := by
  induction l with
  | nil => rfl
  | cons a rest ih =>
    by_cases hp : p a <;> simp [List.filter_cons, hp, ih]

theorem eraseAccH_idem (h : HotspotState) :
    eraseAccH (eraseAccH h) = eraseAccH h := by
  simp [eraseAccH, filter_idem]

theorem eraseAccH_activeBump (h : HotspotState) (n : ℕ) :
    eraseAccH { h with activeEvents := n } = eraseAccH h := rfl

theorem eraseAccH_accBump (h : HotspotState) (q : ℚ) (n : ℕ) :
    eraseAccH { h with accessibilityModifier := q, activeEvents := n }
      = eraseAccH h := rfl

theorem de_recordVisit (h : HotspotState) :
    eraseAccH ((eraseAccH h).recordVisit) = eraseAccH (h.recordVisit) := by
  simp [HotspotState.recordVisit, eraseAccH, filter_idem]

theorem de_addSocialBoost (h : HotspotState) (b : ℚ) :
    eraseAccH ((eraseAccH h).addSocialBoost b)
      = eraseAccH (h.addSocialBoost b) := by
  simp [HotspotState.addSocialBoost, eraseAccH, filter_idem]

theorem de_step (h : HotspotState) :
    eraseAccH ((eraseAccH h).step) = eraseAccH h.step := by
  simp [HotspotState.step, HotspotState.updatePopularity,
    HotspotState.resetDailyCounters, eraseAccH, filter_idem]

theorem eraseAccH_appeal (h : HotspotState) :
    (eraseAccH h).appeal = h.appeal := rfl

theorem eraseAccH_heap (h : HotspotState) :
    (eraseAccH h).heap = h.heap := rfl

theorem eraseAccH_baseAppeal (h : HotspotState) :
    (eraseAccH h).baseAppeal = h.baseAppeal := rfl

theorem eraseAccH_name (h : HotspotState) :
    (eraseAccH h).name = h.name := rfl

theorem eraseAccH_uid (h : HotspotState) :
    (eraseAccH h).uid = h.uid := rfl

theorem eraseAccH_category (h : HotspotState) :
    (eraseAccH h).category = h.category := rfl

theorem eraseAccH_processedEvents (h : HotspotState) :
    (eraseAccH h).processedEvents
      = h.processedEvents.filter (fun e => !isAccEvent e) := rfl

theorem de_setAppeal (h : HotspotState) (p : String) (v : ℚ) :
    eraseAccH ((eraseAccH h).setAppeal p v)
      = eraseAccH (h.setAppeal p v) := by
  unfold HotspotState.setAppeal
  rw [eraseAccH_appeal]
  cases halk : alookup h.appeal p with
  | none => simp [eraseAccH_idem]
  | some entry =>
    cases entry with
    | ref a => simp [eraseAccH, filter_idem]
    | score w => simp [eraseAccH, filter_idem]

theorem eraseAccH_getPersonaAppeal (h : HotspotState) (p : String) :
    (eraseAccH h).getPersonaAppeal p = h.getPersonaAppeal p := rfl

theorem rel_of_de (f : HotspotState → HotspotState)
    (de : ∀ h, eraseAccH (f (eraseAccH h)) = eraseAccH (f h))
    {a b : HotspotState} (hE : eraseAccH a = eraseAccH b) :
    eraseAccH (f a) = eraseAccH (f b) := by
  rw [← de a, hE, de b]

theorem de_boostStep (q : ℚ) (h : HotspotState) (p : String) :
    eraseAccH (boostStep q (eraseAccH h) p) = eraseAccH (boostStep q h p) := by
  unfold boostStep
  rw [eraseAccH_appeal, eraseAccH_getPersonaAppeal]
  split
  · exact de_setAppeal h p _
  · exact eraseAccH_idem h

theorem de_reduceStep (q : ℚ) (h : HotspotState) (p : String) :
    eraseAccH (reduceStep q (eraseAccH h) p)
      = eraseAccH (reduceStep q h p) := by
  unfold reduceStep
  rw [eraseAccH_getPersonaAppeal]
  exact de_setAppeal h p _

theorem de_taxStep (q : ℚ) (h : HotspotState) (p : String) :
    eraseAccH (taxStep q (eraseAccH h) p) = eraseAccH (taxStep q h p) := by
  unfold taxStep
  rw [eraseAccH_baseAppeal, eraseAccH_heap]
  exact de_setAppeal h p _

theorem foldl_rel {β : Type} (f : HotspotState → β → HotspotState)
    (hrel : ∀ (b1 b2 : HotspotState) (x : β), eraseAccH b1 = eraseAccH b2 →
      eraseAccH (f b1 x) = eraseAccH (f b2 x)) (l : List β) :
    ∀ a1 a2 : HotspotState, eraseAccH a1 = eraseAccH a2 →
      eraseAccH (l.foldl f a1) = eraseAccH (l.foldl f a2) := by
  induction l with
  | nil => intro a1 a2 hE; exact hE
  | cons x rest ih =>
    intro a1 a2 hE
    exact ih (f a1 x) (f a2 x) (hrel a1 a2 x hE)

theorem eraseAccH_appealKeys (h : HotspotState) :
    (eraseAccH h).appealKeys = h.appealKeys := rfl

theorem de_processEvent (h : HotspotState) (e : Event) :
    eraseAccH ((eraseAccH h).processEvent e)
      = eraseAccH (h.processEvent e) := by
  unfold HotspotState.processEvent
  split_ifs
  · simp [eraseAccH, filter_idem, HotspotState.appealKeys]
  · simp [eraseAccH, filter_idem, HotspotState.appealKeys]
  · -- appeal_boost
    rw [eraseAccH_activeBump, eraseAccH_activeBump]
    exact foldl_rel (boostStep (e.params.getNum "appeal_boost" 0))
      (fun b1 b2 x hE =>
        rel_of_de (fun b => boostStep (e.params.getNum "appeal_boost" 0) b x)
          (fun h' => de_boostStep _ h' x) hE)
      (e.params.getStrs "target_personas") (eraseAccH h) h (eraseAccH_idem h)
  · simp [eraseAccH, filter_idem, HotspotState.appealKeys]
  · simp [eraseAccH, filter_idem, HotspotState.appealKeys]
  · simp [eraseAccH, filter_idem, HotspotState.appealKeys]
  · simp [eraseAccH, filter_idem, HotspotState.appealKeys]
  · -- appeal_reduction
    rw [eraseAccH_activeBump, eraseAccH_activeBump, eraseAccH_appealKeys]
    exact foldl_rel (reduceStep (e.params.getNum "reduction" 0))
      (fun b1 b2 x hE =>
        rel_of_de (fun b => reduceStep (e.params.getNum "reduction" 0) b x)
          (fun h' => de_reduceStep _ h' x) hE)
      h.appealKeys (eraseAccH h) h (eraseAccH_idem h)
  · exact eraseAccH_idem h

theorem de_applyCapacityLimit (h : HotspotState) (regs : Regulations) :
    eraseAccH ((eraseAccH h).applyCapacityLimit regs)
      = eraseAccH (h.applyCapacityLimit regs) := by
  unfold HotspotState.applyCapacityLimit
  cases regs.capacityLimit with
  | none => exact eraseAccH_idem h
  | some cl =>
    dsimp only
    rw [eraseAccH_name]
    split
    · simp [eraseAccH, filter_idem]
    · exact eraseAccH_idem h

theorem de_applyLuxuryTax (h : HotspotState) (regs : Regulations) :
    eraseAccH ((eraseAccH h).applyLuxuryTax regs)
      = eraseAccH (h.applyLuxuryTax regs) := by
  unfold HotspotState.applyLuxuryTax
  cases regs.luxuryTax with
  | none => exact eraseAccH_idem h
  | some lt =>
    dsimp only
    rw [eraseAccH_category, eraseAccH_appealKeys]
    split
    · exact foldl_rel (taxStep (lt.taxRate * (1/2)))
        (fun b1 b2 x hE =>
          rel_of_de (fun b => taxStep (lt.taxRate * (1/2)) b x)
            (fun h' => de_taxStep _ h' x) hE)
        h.appealKeys (eraseAccH h) h (eraseAccH_idem h)
    · exact eraseAccH_idem h

theorem de_applyRegulations (h : HotspotState) (regs : Regulations) :
    eraseAccH ((eraseAccH h).applyRegulations regs)
      = eraseAccH (h.applyRegulations regs) := by
  unfold HotspotState.applyRegulations
  exact rel_of_de (fun b => b.applyLuxuryTax regs)
    (fun h' => de_applyLuxuryTax h' regs) (de_applyCapacityLimit h regs)

theorem erase_setProcessed (h : HotspotState) (l : List Event) :
    eraseAccH { h with processedEvents := l }
      = { eraseAccH h with
          processedEvents := l.filter fun e => !isAccEvent e } := rfl

theorem pe_acc (h : HotspotState) (a : Event) (ha : isAccEvent a = true) :
    eraseAccH (h.processEvent a) = eraseAccH h := by
  have htype : a.type = "accessibility_reduction" ∨
      a.type = "construction_complete" := by
    simpa [isAccEvent] using ha
  rcases htype with ht | ht <;>
    simp [HotspotState.processEvent, ht, eraseAccH]

theorem fireStep_acc (k : ℕ) (h : HotspotState) (a : Event)
    (ha : isAccEvent a = true) :
    eraseAccH (fireStep k h a) = eraseAccH h := by
  unfold fireStep
  split
  · show eraseAccH { h.processEvent a with
        processedEvents := (h.processEvent a).processedEvents ++ [a] }
      = eraseAccH h
    rw [erase_setProcessed, processEvent_processedEvents,
      List.filter_append, pe_acc h a ha]
    have hfa : [a].filter (fun e => !isAccEvent e) = [] := by
      simp [ha]
    rw [hfa, List.append_nil]
    rfl
  · rfl

theorem fireStep_rel (k : ℕ) (a : Event) (h1 h2 : HotspotState)
    (hE : eraseAccH h1 = eraseAccH h2) :
    eraseAccH (fireStep k h1 a) = eraseAccH (fireStep k h2 a) := by
  by_cases ha : isAccEvent a
  · rw [fireStep_acc k h1 a ha, fireStep_acc k h2 a ha]; exact hE
  · have hname : h1.name = h2.name := by
      have := congrArg HotspotState.name hE
      rwa [eraseAccH_name, eraseAccH_name] at this
    have hfilter : h1.processedEvents.filter (fun e => !isAccEvent e)
        = h2.processedEvents.filter (fun e => !isAccEvent e) := by
      have := congrArg HotspotState.processedEvents hE
      rwa [eraseAccH_processedEvents, eraseAccH_processedEvents] at this
    have hmem : a ∈ h1.processedEvents ↔ a ∈ h2.processedEvents := by
      have hkeep : (fun e => !isAccEvent e) a = true := by
        simp [ha]
      constructor
      · intro hm
        have : a ∈ h2.processedEvents.filter fun e => !isAccEvent e := by
          rw [← hfilter]
          exact List.mem_filter.mpr ⟨hm, hkeep⟩
        exact (List.mem_filter.mp this).1
      · intro hm
        have : a ∈ h1.processedEvents.filter fun e => !isAccEvent e := by
          rw [hfilter]
          exact List.mem_filter.mpr ⟨hm, hkeep⟩
        exact (List.mem_filter.mp this).1
    unfold fireStep
    by_cases hc : a.step = k ∧ a.target = h1.name ∧ a ∉ h1.processedEvents
    · rw [if_pos hc, if_pos (by
        refine ⟨hc.1, ?_, ?_⟩
        · rw [← hname]; exact hc.2.1
        · intro hm; exact hc.2.2 (hmem.mpr hm))]
      show eraseAccH { h1.processEvent a with
          processedEvents := (h1.processEvent a).processedEvents ++ [a] }
        = eraseAccH { h2.processEvent a with
          processedEvents := (h2.processEvent a).processedEvents ++ [a] }
      simp only [erase_setProcessed, processEvent_processedEvents,
        List.filter_append]
      rw [hfilter, rel_of_de (fun b => b.processEvent a)
          (fun h' => de_processEvent h' a) hE]
    · rw [if_neg hc, if_neg (by
        intro hc2
        exact hc ⟨hc2.1, by rw [hname]; exact hc2.2.1,
          fun hm => hc2.2.2 (hmem.mp hm)⟩)]
      exact hE

theorem scan_rel_samelist (l : List Event) (k : ℕ) :
    ∀ h1 h2 : HotspotState, eraseAccH h1 = eraseAccH h2 →
      eraseAccH (l.foldl (fireStep k) h1)
        = eraseAccH (l.foldl (fireStep k) h2) :=
  foldl_rel (fireStep k) (fun b1 b2 x hE => fireStep_rel k x b1 b2 hE) l

theorem scan_filter (l : List Event) (k : ℕ) (h : HotspotState) :
    eraseAccH ((l.filter (fun e => !isAccEvent e)).foldl (fireStep k) h)
      = eraseAccH (l.foldl (fireStep k) h) := by
  induction l generalizing h with
  | nil => rfl
  | cons a rest ih =>
    by_cases ha : isAccEvent a
    · rw [List.filter_cons_of_neg (by simp [ha]), List.foldl_cons]
      rw [show rest.foldl (fireStep k) (fireStep k h a)
          = rest.foldl (fireStep k) (fireStep k h a) from rfl]
      calc eraseAccH ((rest.filter fun e => !isAccEvent e).foldl
            (fireStep k) h)
          = eraseAccH (rest.foldl (fireStep k) h) := ih h
        _ = eraseAccH (rest.foldl (fireStep k) (fireStep k h a)) :=
            scan_rel_samelist rest k h (fireStep k h a)
              (fireStep_acc k h a ha).symm
    · rw [List.filter_cons_of_pos (by simp [ha]), List.foldl_cons,
        List.foldl_cons]
      calc eraseAccH ((rest.filter fun e => !isAccEvent e).foldl
            (fireStep k) (fireStep k h a))
          = eraseAccH (rest.foldl (fireStep k) (fireStep k h a)) :=
            ih (fireStep k h a)
        _ = _ := rfl

theorem eraseAccS_events (sc : Scenario) :
    (eraseAccS sc).events = sc.events.filter fun e => !isAccEvent e := rfl

theorem eraseAccS_regulations (sc : Scenario) :
    (eraseAccS sc).regulations = sc.regulations := rfl

theorem eraseAccS_externalFactors (sc : Scenario) :
    (eraseAccS sc).externalFactors = sc.externalFactors := rfl

theorem applyScenarioEffects_rel (sA sB : Scenario)
    (hS : eraseAccS sA = eraseAccS sB) (k : ℕ) (h1 h2 : HotspotState)
    (hE : eraseAccH h1 = eraseAccH h2) :
    eraseAccH (h1.applyScenarioEffects sA k)
      = eraseAccH (h2.applyScenarioEffects sB k) := by
  have hreg : sA.regulations = sB.regulations := by
    have := congrArg Scenario.regulations hS
    rwa [eraseAccS_regulations, eraseAccS_regulations] at this
  have hev : sA.events.filter (fun e => !isAccEvent e)
      = sB.events.filter fun e => !isAccEvent e := by
    have := congrArg Scenario.events hS
    rwa [eraseAccS_events, eraseAccS_events] at this
  unfold HotspotState.applyScenarioEffects
  rw [hreg]
  refine rel_of_de (fun b => b.applyRegulations sB.regulations)
    (fun h' => de_applyRegulations h' sB.regulations) ?_
  calc eraseAccH (sA.events.foldl (fireStep k) h1)
      = eraseAccH ((sA.events.filter fun e => !isAccEvent e).foldl
          (fireStep k) h1) := (scan_filter sA.events k h1).symm
    _ = eraseAccH ((sB.events.filter fun e => !isAccEvent e).foldl
          (fireStep k) h1) := by rw [hev]
    _ = eraseAccH (sB.events.foldl (fireStep k) h1) :=
        scan_filter sB.events k h1
    _ = eraseAccH (sB.events.foldl (fireStep k) h2) :=
        scan_rel_samelist sB.events k h1 h2 hE

theorem processPersonaEvent_acc (t : TouristState) (e : Event)
    (ha : isAccEvent e = true) : t.processPersonaEvent e = t := by
  have htype : e.type = "accessibility_reduction" ∨
      e.type = "construction_complete" := by
    simpa [isAccEvent] using ha
  rcases htype with ht | ht <;>
    simp [TouristState.processPersonaEvent, ht]

theorem personaEventStep_acc (k : ℕ) (t : TouristState) (e : Event)
    (ha : isAccEvent e = true) : personaEventStep k t e = t := by
  unfold personaEventStep
  split
  · exact processPersonaEvent_acc t e ha
  · rfl

theorem scanT_filter (l : List Event) (k : ℕ) :
    ∀ t : TouristState,
      (l.filter (fun e => !isAccEvent e)).foldl (personaEventStep k) t
        = l.foldl (personaEventStep k) t := by
  induction l with
  | nil => intro t; rfl
  | cons a rest ih =>
    intro t
    by_cases ha : isAccEvent a
    · rw [List.filter_cons_of_neg (by simp [ha]), List.foldl_cons,
        personaEventStep_acc k t a ha]
      exact ih t
    · rw [List.filter_cons_of_pos (by simp [ha]), List.foldl_cons,
        List.foldl_cons]
      exact ih (personaEventStep k t a)

theorem touristApply_obs (t : TouristState) (sA sB : Scenario)
    (hS : eraseAccS sA = eraseAccS sB) (k : ℕ) :
    t.applyScenarioEffects sA k = t.applyScenarioEffects sB k := by
  have hev : sA.events.filter (fun e => !isAccEvent e)
      = sB.events.filter fun e => !isAccEvent e := by
    have := congrArg Scenario.events hS
    rwa [eraseAccS_events, eraseAccS_events] at this
  have hext : sA.externalFactors = sB.externalFactors := by
    have := congrArg Scenario.externalFactors hS
    rwa [eraseAccS_externalFactors, eraseAccS_externalFactors] at this
  unfold TouristState.applyScenarioEffects
  rw [hext, ← scanT_filter sA.events k, ← scanT_filter sB.events k, hev]

theorem touristScore_eraseAccH (sq : ℕ → ℚ) (t : TouristState)
    (a : HotspotState) :
    touristScore sq t (eraseAccH a) = touristScore sq t a := rfl

theorem getCapacityFactor_eraseAccH (a : HotspotState) :
    (eraseAccH a).getCapacityFactor = a.getCapacityFactor := rfl

theorem satisfactionModifiers_eraseAccH (a : HotspotState) :
    (eraseAccH a).satisfactionModifiers = a.satisfactionModifiers := rfl

theorem eraseAccH_pos (a : HotspotState) : (eraseAccH a).pos = a.pos := rfl

theorem map_obs {α : Type} (f g : HotspotState → α)
    (hsA hsB : List HotspotState)
    (hH : hsA.map eraseAccH = hsB.map eraseAccH)
    (hfg : ∀ a b, eraseAccH a = eraseAccH b → f a = g b) :
    hsA.map f = hsB.map g := by
  induction hsA generalizing hsB with
  | nil =>
    cases hsB with
    | nil => rfl
    | cons b bs => simp at hH
  | cons a as ih =>
    cases hsB with
    | nil => simp at hH
    | cons b bs =>
      simp only [List.map_cons, List.cons.injEq] at hH ⊢
      exact ⟨hfg a b hH.1, ih bs hH.2⟩

theorem find_obs (hsA hsB : List HotspotState)
    (hH : hsA.map eraseAccH = hsB.map eraseAccH) (uid : ℕ) :
    ((hsA.find? fun h => h.uid = uid).map eraseAccH)
      = (hsB.find? fun h => h.uid = uid).map eraseAccH := by
  induction hsA generalizing hsB with
  | nil =>
    cases hsB with
    | nil => rfl
    | cons b bs => simp at hH
  | cons a as ih =>
    cases hsB with
    | nil => simp at hH
    | cons b bs =>
      simp only [List.map_cons, List.cons.injEq] at hH
      have huid : a.uid = b.uid := by
        have := congrArg HotspotState.uid hH.1
        rwa [eraseAccH_uid, eraseAccH_uid] at this
      by_cases hu : a.uid = uid
      · rw [List.find?_cons_of_pos _ (by simpa using hu),
          List.find?_cons_of_pos _ (by simp [← huid, hu])]
        simpa using hH.1
      · rw [List.find?_cons_of_neg _ (by simpa using hu),
          List.find?_cons_of_neg _ (by simp [← huid, hu])]
        exact ih bs hH.2

theorem eraseAcc_tourists (ms : ModelState) :
    (eraseAcc ms).tourists = ms.tourists := rfl

theorem eraseAcc_hotspots (ms : ModelState) :
    (eraseAcc ms).hotspots = ms.hotspots.map eraseAccH := rfl

theorem eraseAcc_scen (ms : ModelState) :
    (eraseAcc ms).scen = ms.scen.map eraseAccS := rfl

theorem eraseAcc_currentStep (ms : ModelState) :
    (eraseAcc ms).currentStep = ms.currentStep := rfl

theorem eraseAcc_npCounter (ms : ModelState) :
    (eraseAcc ms).npCounter = ms.npCounter := rfl

theorem eraseAcc_pyCounter (ms : ModelState) :
    (eraseAcc ms).pyCounter = ms.pyCounter := rfl

theorem eraseAcc_metrics (ms : ModelState) :
    (eraseAcc ms).metrics = ms.metrics := rfl

theorem obs_tourists (msA msB : ModelState)
    (hE : eraseAcc msA = eraseAcc msB) : msA.tourists = msB.tourists := by
  have := congrArg ModelState.tourists hE
  rwa [eraseAcc_tourists, eraseAcc_tourists] at this

theorem obs_hotspots (msA msB : ModelState)
    (hE : eraseAcc msA = eraseAcc msB) :
    msA.hotspots.map eraseAccH = msB.hotspots.map eraseAccH := by
  have := congrArg ModelState.hotspots hE
  rwa [eraseAcc_hotspots, eraseAcc_hotspots] at this

theorem obs_scen (msA msB : ModelState)
    (hE : eraseAcc msA = eraseAcc msB) :
    msA.scen.map eraseAccS = msB.scen.map eraseAccS := by
  have := congrArg ModelState.scen hE
  rwa [eraseAcc_scen, eraseAcc_scen] at this

theorem obs_currentStep (msA msB : ModelState)
    (hE : eraseAcc msA = eraseAcc msB) :
    msA.currentStep = msB.currentStep := by
  have := congrArg ModelState.currentStep hE
  rwa [eraseAcc_currentStep, eraseAcc_currentStep] at this

theorem obs_npCounter (msA msB : ModelState)
    (hE : eraseAcc msA = eraseAcc msB) : msA.npCounter = msB.npCounter := by
  have := congrArg ModelState.npCounter hE
  rwa [eraseAcc_npCounter, eraseAcc_npCounter] at this

theorem obs_pyCounter (msA msB : ModelState)
    (hE : eraseAcc msA = eraseAcc msB) : msA.pyCounter = msB.pyCounter := by
  have := congrArg ModelState.pyCounter hE
  rwa [eraseAcc_pyCounter, eraseAcc_pyCounter] at this

theorem obs_metrics (msA msB : ModelState)
    (hE : eraseAcc msA = eraseAcc msB) : msA.metrics = msB.metrics := by
  have := congrArg ModelState.metrics hE
  rwa [eraseAcc_metrics, eraseAcc_metrics] at this

theorem obs_intro {msA msB : ModelState}
    (hT : msA.tourists = msB.tourists)
    (hH : msA.hotspots.map eraseAccH = msB.hotspots.map eraseAccH)
    (hS : msA.scen.map eraseAccS = msB.scen.map eraseAccS)
    (hC : msA.currentStep = msB.currentStep)
    (hN : msA.npCounter = msB.npCounter)
    (hP : msA.pyCounter = msB.pyCounter)
    (hM : msA.metrics = msB.metrics) :
    eraseAcc msA = eraseAcc msB := by
  cases msA
  cases msB
  simp only [eraseAcc] at *
  simp_all

theorem eraseAccH_rel_uid {a b : HotspotState}
    (hab : eraseAccH a = eraseAccH b) : a.uid = b.uid := by
  have := congrArg HotspotState.uid hab
  rwa [eraseAccH_uid, eraseAccH_uid] at this

theorem chooseHotspotStep_rel (o : Oracles) (msA msB : ModelState) (i : ℕ)
    (hE : eraseAcc msA = eraseAcc msB) :
    eraseAcc (chooseHotspotStep o msA i)
      = eraseAcc (chooseHotspotStep o msB i) := by
  have hT := obs_tourists _ _ hE
  have hH := obs_hotspots _ _ hE
  have hNp := obs_npCounter _ _ hE
  unfold chooseHotspotStep
  rw [hT, hNp]
  cases hg : msB.tourists.get? i with
  | none => exact hE
  | some t =>
    dsimp only
    have hscored :
        (msA.hotspots.map fun h => (h.uid, touristScore o.sqrtQ t h))
          = msB.hotspots.map fun h => (h.uid, touristScore o.sqrtQ t h) := by
      refine map_obs _ _ _ _ hH fun a b hab => ?_
      have h2 : touristScore o.sqrtQ t a = touristScore o.sqrtQ t b := by
        rw [← touristScore_eraseAccH o.sqrtQ t a, hab,
          touristScore_eraseAccH]
      rw [eraseAccH_rel_uid hab, h2]
    by_cases hbA : msA.hotspots = []
    · have hbB : msB.hotspots = [] := by
        rw [hbA] at hH
        have := hH.symm
        simpa using this
      rw [if_pos hbA, if_pos hbB]
      exact hE
    · have hbB : ¬msB.hotspots = [] := by
        intro hx
        rw [hx] at hH
        exact hbA (by simpa using hH)
      rw [if_neg hbA, if_neg hbB, hscored]
      split_ifs with hsum
      · have hfind : ∀ uid : ℕ,
            ((msA.hotspots.find? fun h => h.uid = uid).map
                HotspotState.pos)
              = (msB.hotspots.find? fun h => h.uid = uid).map
                HotspotState.pos := by
          intro uid
          have hmapped : ∀ x : Option HotspotState,
              x.map HotspotState.pos
                = (x.map eraseAccH).map HotspotState.pos := by
            intro x
            rw [Option.map_map]
            rfl
          calc (msA.hotspots.find? fun h => h.uid = uid).map
                HotspotState.pos
              = ((msA.hotspots.find? fun h => h.uid = uid).map
                  eraseAccH).map HotspotState.pos := hmapped _
            _ = ((msB.hotspots.find? fun h => h.uid = uid).map
                  eraseAccH).map HotspotState.pos := by
                rw [find_obs msA.hotspots msB.hotspots hH uid]
            _ = (msB.hotspots.find? fun h => h.uid = uid).map
                  HotspotState.pos := (hmapped _).symm
        rw [hfind]
        exact obs_intro rfl hH (obs_scen msA msB hE)
          (obs_currentStep msA msB hE) rfl
          (obs_pyCounter msA msB hE)
          (obs_metrics msA msB hE)
      · exact hE

theorem visitHotspotStep_rel (msA msB : ModelState) (i : ℕ)
    (hE : eraseAcc msA = eraseAcc msB) :
    eraseAcc (visitHotspotStep msA i) = eraseAcc (visitHotspotStep msB i) := by
  have hT := obs_tourists _ _ hE
  have hH := obs_hotspots _ _ hE
  unfold visitHotspotStep
  rw [hT]
  cases hg : msB.tourists.get? i with
  | none => exact hE
  | some t =>
    dsimp only
    cases t.currentHotspot with
    | none => exact hE
    | some uid =>
      dsimp only
      have hfo := find_obs msA.hotspots msB.hotspots hH uid
      cases hfA : msA.hotspots.find? (fun h => h.uid = uid) with
      | none =>
        cases hfB : msB.hotspots.find? (fun h => h.uid = uid) with
        | none => exact hE
        | some hB =>
          rw [hfA, hfB] at hfo
          simp at hfo
      | some hA =>
        cases hfB : msB.hotspots.find? (fun h => h.uid = uid) with
        | none =>
          rw [hfA, hfB] at hfo
          simp at hfo
        | some hB =>
          rw [hfA, hfB] at hfo
          simp only [Option.map_some', Option.some.injEq] at hfo
          dsimp only
          have hrel1 : eraseAccH hA.recordVisit = eraseAccH hB.recordVisit :=
            rel_of_de (fun b => b.recordVisit) (fun h' => de_recordVisit h')
              hfo
          have happ : hA.recordVisit.getPersonaAppeal t.personaType
              = hB.recordVisit.getPersonaAppeal t.personaType := by
            rw [← eraseAccH_getPersonaAppeal hA.recordVisit, hrel1,
              eraseAccH_getPersonaAppeal]
          have hcf : hA.recordVisit.getCapacityFactor
              = hB.recordVisit.getCapacityFactor := by
            rw [← getCapacityFactor_eraseAccH hA.recordVisit, hrel1,
              getCapacityFactor_eraseAccH]
          have hsm : alookup hA.recordVisit.satisfactionModifiers
                t.personaType
              = alookup hB.recordVisit.satisfactionModifiers
                t.personaType := by
            rw [← satisfactionModifiers_eraseAccH hA.recordVisit, hrel1,
              satisfactionModifiers_eraseAccH]
          rw [happ, hcf, hsm]
          have hhs : (msA.hotspots.map fun h2 =>
                if h2.uid = uid then hA.recordVisit else h2).map eraseAccH
              = (msB.hotspots.map fun h2 =>
                if h2.uid = uid then hB.recordVisit else h2).map
                eraseAccH := by
            rw [List.map_map, List.map_map]
            refine map_obs _ _ _ _ hH fun a b hab => ?_
            show eraseAccH (if a.uid = uid then hA.recordVisit else a)
              = eraseAccH (if b.uid = uid then hB.recordVisit else b)
            by_cases hu : a.uid = uid
            · rw [if_pos hu,
                if_pos (show b.uid = uid from eraseAccH_rel_uid hab ▸ hu)]
              exact hrel1
            · rw [if_neg hu, if_neg
                (show ¬b.uid = uid from fun hx =>
                  hu (by rw [eraseAccH_rel_uid hab]; exact hx))]
              exact hab
          exact obs_intro rfl hhs (obs_scen msA msB hE)
            (obs_currentStep msA msB hE)
            (obs_npCounter msA msB hE)
            (obs_pyCounter msA msB hE)
            (obs_metrics msA msB hE)

theorem shareStep_rel (o : Oracles) (msA msB : ModelState) (i : ℕ)
    (hE : eraseAcc msA = eraseAcc msB) :
    eraseAcc (shareStep o msA i) = eraseAcc (shareStep o msB i) := by
  have hT := obs_tourists _ _ hE
  have hH := obs_hotspots _ _ hE
  have hPy := obs_pyCounter _ _ hE
  unfold shareStep
  rw [hT, hPy]
  cases hg : msB.tourists.get? i with
  | none => exact hE
  | some t =>
    dsimp only
    cases t.currentHotspot with
    | none => exact hE
    | some uid =>
      dsimp only
      split_ifs with hdraw
      · have hfo := find_obs msA.hotspots msB.hotspots hH uid
        cases hfA : msA.hotspots.find? (fun h => h.uid = uid) with
        | none =>
          cases hfB : msB.hotspots.find? (fun h => h.uid = uid) with
          | none =>
            exact obs_intro rfl hH (obs_scen msA msB hE)
              (obs_currentStep msA msB hE)
              (obs_npCounter msA msB hE) rfl
              (obs_metrics msA msB hE)
          | some hB =>
            rw [hfA, hfB] at hfo
            simp at hfo
        | some hA =>
          cases hfB : msB.hotspots.find? (fun h => h.uid = uid) with
          | none =>
            rw [hfA, hfB] at hfo
            simp at hfo
          | some hB =>
            rw [hfA, hfB] at hfo
            simp only [Option.map_some', Option.some.injEq] at hfo
            dsimp only
            have hboost : eraseAccH (hA.addSocialBoost
                  (t.satisfaction * t.socialInfluence * (1/10)))
                = eraseAccH (hB.addSocialBoost
                  (t.satisfaction * t.socialInfluence * (1/10))) :=
              rel_of_de
                (fun b => b.addSocialBoost
                  (t.satisfaction * t.socialInfluence * (1/10)))
                (fun h' => de_addSocialBoost h' _) hfo
            have hhs : (msA.hotspots.map fun h2 =>
                  if h2.uid = uid then
                    hA.addSocialBoost
                      (t.satisfaction * t.socialInfluence * (1/10))
                  else h2).map eraseAccH
                = (msB.hotspots.map fun h2 =>
                  if h2.uid = uid then
                    hB.addSocialBoost
                      (t.satisfaction * t.socialInfluence * (1/10))
                  else h2).map eraseAccH := by
              rw [List.map_map, List.map_map]
              refine map_obs _ _ _ _ hH fun a b hab => ?_
              show eraseAccH (if a.uid = uid then
                    hA.addSocialBoost
                      (t.satisfaction * t.socialInfluence * (1/10))
                  else a)
                = eraseAccH (if b.uid = uid then
                    hB.addSocialBoost
                      (t.satisfaction * t.socialInfluence * (1/10))
                  else b)
              by_cases hu : a.uid = uid
              · rw [if_pos hu,
                  if_pos (show b.uid = uid from eraseAccH_rel_uid hab ▸ hu)]
                exact hboost
              · rw [if_neg hu, if_neg
                  (show ¬b.uid = uid from fun hx =>
                    hu (by rw [eraseAccH_rel_uid hab]; exact hx))]
                exact hab
            exact obs_intro rfl hhs (obs_scen msA msB hE)
              (obs_currentStep msA msB hE)
              (obs_npCounter msA msB hE) rfl
              (obs_metrics msA msB hE)
      · exact obs_intro rfl hH (obs_scen msA msB hE)
          (obs_currentStep msA msB hE)
          (obs_npCounter msA msB hE) rfl
          (obs_metrics msA msB hE)

theorem recommendStep_rel (msA msB : ModelState) (i : ℕ)
    (hE : eraseAcc msA = eraseAcc msB) :
    eraseAcc (recommendStep msA i) = eraseAcc (recommendStep msB i) := by
  have hT := obs_tourists _ _ hE
  unfold recommendStep
  rw [hT]
  cases hg : msB.tourists.get? i with
  | none => exact hE
  | some t =>
    dsimp only
    cases t.currentHotspot with
    | none => exact hE
    | some uid =>
      dsimp only
      split_ifs with hsat
      · exact hE
      · exact obs_intro rfl (obs_hotspots msA msB hE)
          (obs_scen msA msB hE)
          (obs_currentStep msA msB hE)
          (obs_npCounter msA msB hE)
          (obs_pyCounter msA msB hE)
          (obs_metrics msA msB hE)

theorem touristStep_rel (o : Oracles) (msA msB : ModelState) (i : ℕ)
    (hE : eraseAcc msA = eraseAcc msB) :
    eraseAcc (touristStep o msA i) = eraseAcc (touristStep o msB i) := by
  have hT := obs_tourists _ _ hE
  unfold touristStep
  rw [hT]
  cases hg : msB.tourists.get? i with
  | none => exact hE
  | some t =>
    dsimp only
    split_ifs with hb
    · exact recommendStep_rel _ _ i
        (shareStep_rel o _ _ i
          (visitHotspotStep_rel _ _ i
            (chooseHotspotStep_rel o msA msB i hE)))
    · exact hE

theorem eraseAccH_currentPopularity (h : HotspotState) :
    (eraseAccH h).currentPopularity = h.currentPopularity := rfl

theorem eraseAccH_visitorsToday (h : HotspotState) :
    (eraseAccH h).visitorsToday = h.visitorsToday := rfl

theorem eraseAccH_totalVisitors (h : HotspotState) :
    (eraseAccH h).totalVisitors = h.totalVisitors := rfl

theorem eraseAccH_socialShares (h : HotspotState) :
    (eraseAccH h).socialShares = h.socialShares := rfl

theorem collect_obs {msA msB : ModelState}
    (hE : eraseAcc msA = eraseAcc msB) : collect msA = collect msB := by
  have hT := obs_tourists _ _ hE
  have hH := obs_hotspots _ _ hE
  have hlen : msA.hotspots.length = msB.hotspots.length := by
    have := congrArg List.length hH
    simpa using this
  have hpop : msA.hotspots.map HotspotState.currentPopularity
      = msB.hotspots.map HotspotState.currentPopularity :=
    map_obs _ _ _ _ hH fun a b hab => by
      have := congrArg HotspotState.currentPopularity hab
      rwa [eraseAccH_currentPopularity, eraseAccH_currentPopularity] at this
  have htv : (msA.hotspots.map fun h => h.totalVisitors + h.visitorsToday)
      = msB.hotspots.map fun h => h.totalVisitors + h.visitorsToday :=
    map_obs _ _ _ _ hH fun a b hab => by
      have h1 := congrArg HotspotState.totalVisitors hab
      have h2 := congrArg HotspotState.visitorsToday hab
      rw [eraseAccH_totalVisitors, eraseAccH_totalVisitors] at h1
      rw [eraseAccH_visitorsToday, eraseAccH_visitorsToday] at h2
      rw [h1, h2]
  have hss : msA.hotspots.map HotspotState.socialShares
      = msB.hotspots.map HotspotState.socialShares :=
    map_obs _ _ _ _ hH fun a b hab => by
      have := congrArg HotspotState.socialShares hab
      rwa [eraseAccH_socialShares, eraseAccH_socialShares] at this
  have hvt : msA.hotspots.map HotspotState.visitorsToday
      = msB.hotspots.map HotspotState.visitorsToday :=
    map_obs _ _ _ _ hH fun a b hab => by
      have := congrArg HotspotState.visitorsToday hab
      rwa [eraseAccH_visitorsToday, eraseAccH_visitorsToday] at this
  unfold collect
  rw [hT, hpop, htv, hss, hvt, hlen]
  by_cases hbA : msA.hotspots = []
  · have hbB : msB.hotspots = [] := by
      rw [hbA] at hH
      have := hH.symm
      simpa using this
    rw [if_pos hbA, if_pos hbB]
  · have hbB : ¬msB.hotspots = [] := by
      intro hx
      rw [hx] at hH
      exact hbA (by simpa using hH)
    rw [if_neg hbA, if_neg hbB]

theorem collectPhase_rel {msA msB : ModelState}
    (hE : eraseAcc msA = eraseAcc msB) :
    eraseAcc (collectPhase msA) = eraseAcc (collectPhase msB) := by
  unfold collectPhase
  have hM : msA.metrics ++ [collect msA] = msB.metrics ++ [collect msB] := by
    rw [obs_metrics _ _ hE, collect_obs hE]
  exact obs_intro (obs_tourists msA msB hE) (obs_hotspots msA msB hE)
    (obs_scen msA msB hE) (obs_currentStep msA msB hE)
    (obs_npCounter msA msB hE) (obs_pyCounter msA msB hE) hM

theorem scenPhase_rel {msA msB : ModelState}
    (hE : eraseAcc msA = eraseAcc msB) :
    eraseAcc (scenPhase msA) = eraseAcc (scenPhase msB) := by
  have hS := obs_scen _ _ hE
  unfold scenPhase
  cases hsA : msA.scen with
  | none =>
    cases hsB : msB.scen with
    | none => exact hE
    | some sB =>
      rw [hsA, hsB] at hS
      simp at hS
  | some sA =>
    cases hsB : msB.scen with
    | none =>
      rw [hsA, hsB] at hS
      simp at hS
    | some sB =>
      rw [hsA, hsB] at hS
      simp only [Option.map_some', Option.some.injEq] at hS
      dsimp only
      have hk := obs_currentStep _ _ hE
      have hhs : (msA.hotspots.map fun h =>
            HotspotState.applyScenarioEffects h sA msA.currentStep).map
            eraseAccH
          = (msB.hotspots.map fun h =>
            HotspotState.applyScenarioEffects h sB msB.currentStep).map
            eraseAccH := by
        rw [List.map_map, List.map_map]
        refine map_obs _ _ _ _ (obs_hotspots _ _ hE) fun a b hab => ?_
        show eraseAccH (a.applyScenarioEffects sA msA.currentStep)
          = eraseAccH (b.applyScenarioEffects sB msB.currentStep)
        rw [hk]
        exact applyScenarioEffects_rel sA sB hS _ a b hab
      have hts : (msA.tourists.map fun t =>
            TouristState.applyScenarioEffects t sA msA.currentStep)
          = msB.tourists.map fun t =>
            TouristState.applyScenarioEffects t sB msB.currentStep := by
        rw [obs_tourists _ _ hE, hk]
        exact List.map_congr_left fun t _ => touristApply_obs t sA sB hS _
      exact obs_intro hts hhs
        (show Option.map eraseAccS (some sA) = Option.map eraseAccS (some sB)
          from by simp [hS])
        (obs_currentStep msA msB hE)
        (obs_npCounter msA msB hE)
        (obs_pyCounter msA msB hE)
        (obs_metrics msA msB hE)

theorem hotspotPhase_rel {msA msB : ModelState}
    (hE : eraseAcc msA = eraseAcc msB) :
    eraseAcc (hotspotPhase msA) = eraseAcc (hotspotPhase msB) := by
  unfold hotspotPhase
  have hhs : (msA.hotspots.map HotspotState.step).map eraseAccH
      = (msB.hotspots.map HotspotState.step).map eraseAccH := by
    rw [List.map_map, List.map_map]
    refine map_obs _ _ _ _ (obs_hotspots _ _ hE) fun a b hab => ?_
    show eraseAccH a.step = eraseAccH b.step
    exact rel_of_de (fun x => x.step) (fun h' => de_step h') hab
  exact obs_intro (obs_tourists msA msB hE) hhs
    (obs_scen msA msB hE) (obs_currentStep msA msB hE)
    (obs_npCounter msA msB hE) (obs_pyCounter msA msB hE)
    (obs_metrics msA msB hE)

theorem foldl_touristStep_rel (o : Oracles) (l : List ℕ) :
    ∀ a b : ModelState, eraseAcc a = eraseAcc b →
      eraseAcc (l.foldl (touristStep o) a)
        = eraseAcc (l.foldl (touristStep o) b) := by
  induction l with
  | nil => intro a b hE; exact hE
  | cons x rest ih =>
    intro a b hE
    exact ih _ _ (touristStep_rel o a b x hE)

theorem touristPhase_rel (o : Oracles) {msA msB : ModelState}
    (hE : eraseAcc msA = eraseAcc msB) :
    eraseAcc (touristPhase o msA) = eraseAcc (touristPhase o msB) := by
  unfold touristPhase
  rw [obs_tourists _ _ hE]
  exact foldl_touristStep_rel o _ msA msB hE

theorem modelStep_rel (o : Oracles) {msA msB : ModelState}
    (hE : eraseAcc msA = eraseAcc msB) :
    eraseAcc (modelStep o msA) = eraseAcc (modelStep o msB) := by
  unfold modelStep
  dsimp only
  have h3 := touristPhase_rel o
    (hotspotPhase_rel (scenPhase_rel (collectPhase_rel hE)))
  have hT := obs_tourists _ _ h3
  have hH := obs_hotspots _ _ h3
  have hS := obs_scen _ _ h3
  have hC := obs_currentStep _ _ h3
  have hN := obs_npCounter _ _ h3
  have hP := obs_pyCounter _ _ h3
  have hM := obs_metrics _ _ h3
  exact obs_intro hT hH hS (congrArg (fun x => x + 1) hC) hN hP hM

theorem runModel_rel (o : Oracles) (n : ℕ) {msA msB : ModelState}
    (hE : eraseAcc msA = eraseAcc msB) :
    eraseAcc (runModel o n msA) = eraseAcc (runModel o n msB) := by
  unfold runModel
  induction n with
  | zero => exact hE
  | succ n ih =>
    rw [Function.iterate_succ_apply', Function.iterate_succ_apply']
    exact modelStep_rel o ih


/-- Claim C10, amended: accessibility noninterference.  The
accessibility-derived state (the `accessibility_modifier`, the
`active_events` tally and the processed-event records of accessibility
events) is never read by any choice, visit, satisfaction, sharing,
popularity or metrics computation: two runs whose configurations agree
after erasing that state — in particular, runs differing only in
`accessibility_reduction`/`construction_complete` events — stay
erasure-equal forever, with identical tourist states (choices and
satisfaction), identical metrics series, and statistics snapshots equal on
every field except `accessibility_modifier`, `active_events` and
`processed_events` (`coreStats`). -/
theorem C10_accessibility_noninterference (o : Oracles) (n : ℕ)
    (msA msB : ModelState) (hE : eraseAcc msA = eraseAcc msB) :
    eraseAcc (runModel o n msA) = eraseAcc (runModel o n msB) ∧
      (runModel o n msA).tourists = (runModel o n msB).tourists ∧
      (runModel o n msA).metrics = (runModel o n msB).metrics ∧
      (runModel o n msA).hotspots.map coreStats
        = (runModel o n msB).hotspots.map coreStats := by
  have hrun := runModel_rel o n hE
  refine ⟨hrun, obs_tourists _ _ hrun, obs_metrics _ _ hrun, ?_⟩
  have hh := obs_hotspots _ _ hrun
  have key : ∀ l : List HotspotState,
      l.map coreStats
        = (l.map eraseAccH).map HotspotState.getStatistics := by
    intro l
    rw [List.map_map]
    rfl
  rw [key, key, hh]

/-- Witness for the amended C10 theorem: the baseline run and the run with
one extra accessibility-reduction event are erasure-equal at the start,
hence observationally equal after a tick. -/
theorem C10_accessibility_noninterference_witness :
    eraseAcc (runModel oZero 1 msAccA) = eraseAcc (runModel oZero 1 msAccB) ∧
      (runModel oZero 1 msAccA).tourists
        = (runModel oZero 1 msAccB).tourists ∧
      (runModel oZero 1 msAccA).metrics
        = (runModel oZero 1 msAccB).metrics ∧
      (runModel oZero 1 msAccA).hotspots.map coreStats
        = (runModel oZero 1 msAccB).hotspots.map coreStats :=
  C10_accessibility_noninterference oZero 1 msAccA msAccB
    (by with_unfolding_all rfl)

end MesaPoc
